import Mathlib

/-!
# chatbotCli

A shallow embedding of the chat client's core:

* `integrations.Retry` (internal/integrations/utils.go),
* the ToastJam backend (internal/integrations/ToastJam/toast.go),
* the chat model, its transcript formatter and its `Update` step
  (internal/components/chat.go).

Go strings are Lean strings; where the source slices a string by bytes the
UTF-8 bytes are made explicit. Go `int`, `int64` and `time.Duration` are
integers wrapped to 64 bits. Code that may panic returns an `Outcome`.
Library calls (base64, JSON, HTTP, the terminal widgets) are fields of an
environment record.
-/

namespace ChatbotCli

/-! ## Basic vocabulary -/

/-- Result of running Go code: it returns a value or it panics. -/
inductive Outcome (α : Type) where
  | ret (a : α) : Outcome α
  | panic (reason : String) : Outcome α

/-- Whether the code returned normally. -/
def Outcome.returned {α : Type} : Outcome α → Bool
  | .ret _ => true
  | .panic _ => false

/-- Two's-complement wrap-around of 64-bit signed arithmetic. -/
def wrap64 (x : Int) : Int :=
  (x + 9223372036854775808) % 18446744073709551616 - 9223372036854775808

/-- A Go `map[string]V`: finitely many distinct keys. -/
abbrev GoMap (V : Type) : Type := AList (fun _ : String => V)

/-- Modelled from the spec: the type `bots.BotResponse` (package internal/bots is
not among the sources): a content string and a string-to-string metadata map,
as the spec's data model and the field uses in chat.go and toast.go give it. -/
structure BotResponse where
  Content : String
  Metadata : GoMap String

/-- An observable effect of the retrying caller. -/
inductive Ev where
  | call : Ev
  | sleep (d : Int) : Ev
deriving DecidableEq, Repr

/-- The world a backend call acts on: the state of the network side and the
log of calls and sleeps made so far. -/
structure World (σ : Type) where
  net : σ
  log : List Ev

/-! ## internal/integrations/utils.go -/

/-- The Go function `Retry`. `fn` is a stateful call: from the network state and the
request it gives the pair `(response, err)` and the next network state. Each
invocation of `fn` and each `time.Sleep` is appended to the log. -/
def Retry {σ Q R E : Type} (attempts : Int) (sleep : Int)
    (fn : σ → Q → (Option R × Option E) × σ) (req : Q) (w : World σ) :
    (Option R × Option E) × World σ :=
  let out := fn w.net req
  let w1 : World σ := ⟨out.2, w.log ++ [Ev.call]⟩
  match out.1.2 with
  | some err =>
    if h : wrap64 (attempts - 1) > 0 then
      let w2 : World σ := ⟨w1.net, w1.log ++ [Ev.sleep sleep]⟩
      Retry (wrap64 (attempts - 1)) (wrap64 (sleep * 2)) fn req w2
    else ((none, some err), w1)
  | none => ((out.1.1, none), w1)
termination_by (wrap64 (attempts - 1)).toNat
decreasing_by
  simp only [wrap64] at h ⊢
  omega

/-- Network state before the `i`-th invocation (counting from 0) of `fn`. -/
def stateBefore {σ Q R E : Type} (fn : σ → Q → (Option R × Option E) × σ) (req : Q) :
    Nat → σ → σ
  | 0, s => s
  | i + 1, s => stateBefore fn req i (fn s req).2

/-- The pair `(response, err)` of the `i`-th invocation (counting from 0). -/
def nthResult {σ Q R E : Type} (fn : σ → Q → (Option R × Option E) × σ) (req : Q)
    (s : σ) (i : Nat) : Option R × Option E :=
  (fn (stateBefore fn req i s) req).1

/-- Number of invocations recorded in a log. -/
def callCount (log : List Ev) : Nat :=
  (log.filter (fun e => decide (e = Ev.call))).length

/-- The durations passed to `time.Sleep`, in order. -/
def sleepsOf : List Ev → List Int
  | [] => []
  | Ev.call :: es => sleepsOf es
  | Ev.sleep d :: es => d :: sleepsOf es

/-- The log of `k` failed attempts, each followed by its sleep, and one last attempt. -/
def backoffLog (d : Int) (k : Nat) : List Ev :=
  (List.range k).flatMap (fun j => [Ev.call, Ev.sleep (2 ^ j * d)]) ++ [Ev.call]

/-! ## internal/integrations/ToastJam/toast.go -/

structure Message where
  Content : String
  Role : String
deriving DecidableEq, Repr

structure ToastJamResponse where
  Timestamp : String
  CorrelationId : String
  ToastTeam : String
  ToastProduct : String
  Model : String
  Messages : List Message
  RestaurantId : String

structure Parameters where
  AiUserType : String
  DoSample : Bool
  MaxNewTokens : Int
  StopSequences : List String
  Temperature : Rat
  TopK : Int
  TopP : Rat

structure Request where
  CorrelationId : String
  LogResults : Bool
  Messages : List Message
  Model : String
  Parameters : Parameters
  RequestType : String
  Timestamp : String
  ToastJamRequestType : String
  ToastProduct : String
  ToastTeam : String
  UseGuardrail : Bool

/-- An `http.Request` as `makeCall` builds it. -/
structure HttpRequest where
  method : String
  url : String
  body : String
  header : List (String × String)

/-- A decoded JSON value as `json.Unmarshal` stores it in an `interface{}`.
A number carries `int64(f)` of its `float64`, the only way the source reads it. -/
inductive JVal where
  | null : JVal
  | bool (b : Bool) : JVal
  | number (asInt64 : Int) : JVal
  | string (s : String) : JVal
  | array : JVal
  | object : JVal

/-- The library calls and the process environment the ToastJam backend uses.
`σ` is the state of the network side, `Resp` the type of `http.Response`. -/
structure ToastEnv (σ Resp : Type) where
  /-- Value of `os.Getenv("TOAST_AUTH_TOKEN")`. -/
  token : String
  /-- Value of `time.Now().Unix()`. -/
  now : Int
  /-- Library call `b64.StdEncoding.DecodeString`; `none` when it returns an error. -/
  b64Decode : String → Option String
  /-- Library call `json.Unmarshal` into a `map[string]interface{}`; `none` on error. -/
  jsonUnmarshalMap : String → Option (GoMap JVal)
  /-- Value of `uuid.New().String()`. -/
  uuid : String
  /-- Value of `time.Now().Format("2006-01-02T15:04:05.000Z")`. -/
  timestamp : String
  /-- Library call `json.Marshal` of the request. -/
  jsonMarshal : Request → Except String String
  /-- Library call `client.Do`. -/
  clientDo : σ → HttpRequest → (Option Resp × Option String) × σ
  /-- Library call `io.ReadAll(resp.Body)`. -/
  readAll : Resp → Except String String
  /-- Library call `resp.Body.Close()`; `none` when it succeeds. -/
  closeBody : Resp → Option String
  /-- Library call `json.Unmarshal` into a `ToastJamResponse`. -/
  jsonUnmarshalResponse : String → Except String ToastJamResponse

/-- Split a list of characters at every occurrence of `sep`. -/
def splitChars (sep : Char) : List Char → List (List Char)
  | [] => [[]]
  | c :: cs =>
    match splitChars sep cs with
    | [] => [[]]
    | p :: ps => if c = sep then [] :: p :: ps else (c :: p) :: ps

/-- Library call `strings.Split(s, ".")` with a one-character separator. -/
def stringsSplit (s : String) (sep : Char) : List String :=
  (splitChars sep s.data).map String.mk

/-- Go's name for the dynamic type of a decoded JSON value. -/
def JVal.goType : JVal → String
  | .null => "nil"
  | .bool _ => "bool"
  | .number _ => "float64"
  | .string _ => "string"
  | .array => "[]interface \x7b\x7d"
  | .object => "map[string]interface \x7b\x7d"

/-- The panic message of a failed type assertion `v.(float64)` on the value read from
the map; an absent key reads as nil. -/
def assertFloat64Panic (v : Option JVal) : String :=
  "interface conversion: interface \x7b\x7d is " ++
    (match v with
      | none => "nil"
      | some j => j.goType) ++ ", not float64"

/-- The function `getRemainingTokenTime`: the pair `(remaining seconds, err)`, or a panic
when the type assertion `toastInfo["exp"].(float64)` fails. -/
def getRemainingTokenTime {σ Resp : Type} (env : ToastEnv σ Resp) (toastToken : String) :
    Outcome (Int × Option String) :=
  if toastToken = "" then .ret (0, some "no token")
  else
    let parts := stringsSplit toastToken '.'
    if parts.length ≠ 3 then .ret (0, some "auth token invalid")
    else
      match env.b64Decode (parts.getD 1 "") with
      | none => .ret (0, some "auth token invalid")
      | some toastInfoRaw =>
        match env.jsonUnmarshalMap toastInfoRaw with
        | none => .ret (0, some "auth token invalid")
        | some toastInfo =>
          match toastInfo.lookup "exp" with
          | some (JVal.number exp) =>
            let remainingTime := wrap64 (exp - env.now)
            if remainingTime < 0 then .ret (0, some "auth token expired")
            else .ret (remainingTime, none)
          | v => .panic (assertFloat64Panic v)

/-- The function `formatRemainingTime`; Go's `/` and `%` truncate toward zero. -/
def formatRemainingTime (remainingTokenTime : Int) : String :=
  let minutes := Int.tdiv remainingTokenTime 60
  let seconds := Int.tmod remainingTokenTime 60
  toString minutes ++ " minutes and " ++ toString seconds ++ " seconds"

/-- The function `ConstructMessages`: the loop `for i := messagesToCut; i < len(userLines); i++`
runs over the indices from `messagesToCut` on. -/
def ConstructMessages (userLines : List String) (botLines : List BotResponse)
    (systemPrompt : String) (messagesToCut : Int) : Outcome (List Message) :=
  let messages : List Message := []
  let messages := messages ++ [⟨systemPrompt, "SYSTEM"⟩]
  if messagesToCut < 0 then
    -- the loop is entered with a negative index and `userLines[i]` panics
    .panic "index out of range"
  else
    .ret ((List.range' messagesToCut.toNat (userLines.length - messagesToCut.toNat)).foldl
      (fun messages i =>
        let messages := messages ++ [⟨userLines.getD i "", "USER"⟩]
        if i < botLines.length then
          messages ++ [⟨(botLines.getD i ⟨"", ∅⟩).Content, "LLM"⟩]
        else messages)
      messages)

/-- The `Request` value that `makeCall` builds around the messages. -/
def toastRequest {σ Resp : Type} (env : ToastEnv σ Resp) (messages : List Message) : Request :=
  { CorrelationId := env.uuid
    LogResults := false
    Messages := messages
    Model := "llama_2_13b_chat"
    Parameters :=
      { AiUserType := "llm"
        DoSample := false
        MaxNewTokens := 1024
        StopSequences := []
        Temperature := 2 / 10
        TopK := 50
        TopP := 5 / 10 }
    RequestType := "COMPLETION"
    Timestamp := env.timestamp
    ToastJamRequestType := "TOAST_JAM"
    ToastProduct := "chatbot-cli"
    ToastTeam := "bachmann"
    UseGuardrail := true }

/-- The `http.Request` that `makeCall` builds: a POST of the marshalled body with the
five headers. `http.NewRequest` is given a constant method and URL and its error is
ignored by the source. -/
def toastHttpRequest (toastToken postBody : String) : HttpRequest :=
  { method := "POST"
    url := "https://preprod.eng.toasttab.com/api/service/ds-model/v1/scone/ds-toast-jam/"
    body := postBody
    header :=
      [("Authorization", "Bearer " ++ toastToken),
       ("Content-Type", "application/json"),
       ("Toast-Restaurant-External-Id", "c7b9367b-bc36-49ca-99e6-b4417b335476"),
       ("Toast-Management-Set-Guid", "50f552fc-cc24-4cbe-84e1-20d96e644c8b"),
       ("Toast-Restaurant-Set-Guid", "a60f8d88-2ce1-4d70-a478-c42d493bf286")] }

/-- The function `makeCall`: every error after the request is built is a panic. -/
def makeCall {σ Resp : Type} (env : ToastEnv σ Resp) (userLines : List String)
    (botLines : List BotResponse) (systemPrompt : String) (messagesToCut : Int)
    (toastToken : String) (w : World σ) : Outcome ToastJamResponse × World σ :=
  match ConstructMessages userLines botLines systemPrompt messagesToCut with
  | .panic r => (.panic r, w)
  | .ret messages =>
    let request : Request := toastRequest env messages
    match env.jsonMarshal request with
    | .error e => (.panic e, w)
    | .ok postBody =>
      let req : HttpRequest := toastHttpRequest toastToken postBody
      match Retry 3 1 env.clientDo req w with
      | ((_, some err), w1) => (.panic err, w1)
      | ((none, none), w1) => (.panic "nil pointer dereference", w1)
      | ((some resp, none), w1) =>
        -- the deferred `Body.Close()` runs when makeCall exits, by return or by panic
        match env.readAll resp with
        | .error e => (.panic ((env.closeBody resp).getD e), w1)
        | .ok body =>
          match env.jsonUnmarshalResponse body with
          | .error e => (.panic ((env.closeBody resp).getD e), w1)
          | .ok toastJamResponse =>
            match env.closeBody resp with
            | some e => (.panic e, w1)
            | none => (.ret toastJamResponse, w1)

/-- The method `ToastJam.GetBotResponse`. -/
def GetBotResponse {σ Resp : Type} (env : ToastEnv σ Resp) (userLines : List String)
    (botLines : List BotResponse) (systemPrompt : String) (w : World σ) :
    Outcome BotResponse × World σ :=
  let toastToken := env.token
  match getRemainingTokenTime env toastToken with
  | .panic r => (.panic r, w)
  | .ret (remainingTokenTime, err) =>
    let formattedRemainingTime := formatRemainingTime remainingTokenTime
    match err with
    | some e => (.ret ⟨e, ∅⟩, w)
    | none =>
      match makeCall env userLines botLines systemPrompt 0 toastToken w with
      | (.panic r, w1) => (.panic r, w1)
      | (.ret toastResponse, w1) =>
        if h : 0 < toastResponse.Messages.length then
          (.ret
            ⟨(toastResponse.Messages.get ⟨toastResponse.Messages.length - 1, by omega⟩).Content,
              AList.singleton "auth_expires_in" formattedRemainingTime⟩, w1)
        else (.panic "index out of range [-1]", w1)

/-! ## internal/components/chat.go -/

/-- A message of the event loop (`tea.Msg`), by the cases `Update` distinguishes. -/
inductive Msg where
  /-- The message `tea.WindowSizeMsg`. -/
  | windowSize (width height : Int) : Msg
  /-- The message `tea.KeyMsg`, carried as its `String()` form. -/
  | key (name : String) : Msg
  /-- A `bots.BotResponse` delivered by a finished `DoBotMessage`. -/
  | botResponse (r : BotResponse) : Msg
  /-- Every other message: spinner ticks, cursor blinks. -/
  | other (tag : Nat) : Msg

/-- Result of creating, writing and flushing the transcript file. -/
inductive WriteResult where
  | ok : WriteResult
  | writeFailed : WriteResult
  | flushFailed : WriteResult

/-- The external collaborators of the chat model: the terminal widgets of the
bubbles library, the `presentation` package, the clock and the file system. -/
structure Widgets where
  TextArea : Type
  Viewport : Type
  Metadata : Type
  Spinner : Type
  Time : Type
  Bot : Type
  /-- Commands the widgets return. -/
  WidgetCmd : Type
  /-- The text area as `InitialModel` configures it. -/
  taNew : TextArea
  taUpdate : TextArea → Msg → TextArea × Option WidgetCmd
  taValue : TextArea → String
  taReset : TextArea → TextArea
  vpNew : Int → Int → Viewport
  vpUpdate : Viewport → Msg → Viewport × Option WidgetCmd
  vpSetHeight : Viewport → Int → Viewport
  vpSetContent : Viewport → String → Viewport
  vpGotoBottom : Viewport → Viewport
  mdNew : Metadata
  mdUpdate : Metadata → Msg → Metadata × Option WidgetCmd
  spNew : Spinner
  spUpdate : Spinner → Msg → Spinner × Option WidgetCmd
  /-- Value of `time.Now()`. -/
  timeNow : Time
  /-- Library call `Time.Format(layout)`. -/
  timeFormat : Time → String → String
  /-- The backend `ToastJam.ToastJam` with name "Toast Jam". -/
  toastJam : Bot
  /-- The function `openai.GetGPTModel`; `none` for nil. -/
  getGPTModel : String → Option Bot
  /-- The function `bots.GetChatBot`; `none` for nil. -/
  getChatBot : String → Option Bot
  /-- The constant `presentation.BoxWidth`. -/
  boxWidth : Int
  /-- The constant `presentation.Width`. -/
  width : Int
  /-- The constant `presentation.HumanUser.Prompt`. -/
  humanPrompt : String
  /-- The constant `presentation.BotUser.Prompt`. -/
  botPrompt : String
  /-- The call `presentation.HumanUser.Style.Render`. -/
  humanStyle : String → String
  /-- The call `presentation.BotUser.Style.Render`. -/
  botStyle : String → String
  /-- The call `presentation.PromptStyle.Render`. -/
  promptStyle : String → String
  /-- The bold, coloured rendering of "Initial Prompt: ". -/
  promptLabel : String
  /-- Library call `wordwrap.String`. -/
  wordwrap : String → Int → String
  /-- Creating the file named after the start time and the filename fragment
  (given as bytes) in the log directory, writing the document and flushing. -/
  writeFile : Time → List UInt8 → String → WriteResult

structure ChatModel (W : Widgets) where
  systemPrompt : String
  userLines : List String
  botLines : List BotResponse
  currentMessage : W.TextArea
  viewport : W.Viewport
  metadata : W.Metadata
  quitting : Bool
  spinner : W.Spinner
  chatStartTime : W.Time
  chatBot : W.Bot
  writingMessage : Bool

/-- A command (`tea.Cmd`) returned by `Update`. -/
inductive Cmd (W : Widgets) where
  /-- The command of the metadata widget, possibly nil. -/
  | widget (c : Option W.WidgetCmd) : Cmd W
  /-- The method value `m.DoBotMessage`, bound to the model it was taken from. -/
  | doBotMessage (m : ChatModel W) : Cmd W
  /-- The command `tea.Quit`. -/
  | quit : Cmd W
  /-- The command `tea.Batch(tiCmd, vpCmd, cmd)`. -/
  | batch (tiCmd vpCmd cmd : Option W.WidgetCmd) : Cmd W

/-- Whether a command invokes the backend. -/
def Cmd.isDoBotMessage {W : Widgets} : Cmd W → Bool
  | .doBotMessage _ => true
  | _ => false

def WriteLine (sb : String) (message : String)
    (style : String → String) (prompt : String) : String :=
  sb ++ style (prompt ++ message)

def WriteUserLine (W : Widgets) (sb : String) (message : String) : String :=
  WriteLine sb message W.humanStyle W.humanPrompt

def WriteBotLine (W : Widgets) (sb : String) (message : String) : String :=
  WriteLine sb message W.botStyle W.botPrompt

/-- The function `GetAIModel`; it panics on an unknown model name. -/
def GetAIModel (W : Widgets) (name : String) : Outcome W.Bot :=
  if name = "toast" then .ret W.toastJam
  else
    match W.getGPTModel name with
    | some model => .ret model
    | none =>
      match W.getChatBot name with
      | some model => .ret model
      | none => .panic ("Unknown model " ++ name)

/-- The function `InitialModel`. -/
def InitialModel (W : Widgets) (systemPrompt : String) (modelName : String) :
    Outcome (ChatModel W) :=
  let ta := W.taNew
  let vp := W.vpNew W.boxWidth 10
  let s := W.spNew
  let metadata := W.mdNew
  match GetAIModel W modelName with
  | .panic r => .panic r
  | .ret chatBot =>
    .ret
      { systemPrompt := systemPrompt
        userLines := []
        botLines := []
        metadata := metadata
        currentMessage := ta
        viewport := vp
        quitting := false
        spinner := s
        chatBot := chatBot
        chatStartTime := W.timeNow
        writingMessage := true }

def isUserTurn {W : Widgets} (m : ChatModel W) : Bool :=
  m.userLines.length == m.botLines.length

def isBotTurn {W : Widgets} (m : ChatModel W) : Bool :=
  !isUserTurn m

/-- Library call `sort.Strings`. Go orders strings byte by byte, which on UTF-8 text is
the order of the code points, the order of Lean strings. -/
def sortStrings (keys : List String) : List String :=
  keys.insertionSort (· ≤ ·)

/-- The method `formatChatForMarkdown`; the string builder is the accumulated text. -/
def formatChatForMarkdown {W : Widgets} (m : ChatModel W) : String :=
  let sb := ""
  let sb := sb ++ ("# System Prompt: " ++ m.systemPrompt ++ "\n")
  let sb := sb ++ ("## " ++ W.timeFormat m.chatStartTime "2006-January-02 15:04:05" ++ "\n\n")
  let sb :=
    if h : m.botLines.length > 0 then
      let finalMetadata := (m.botLines.get ⟨m.botLines.length - 1, by omega⟩).Metadata
      let sb := sb ++ "## Metadata - "
      let keys := finalMetadata.keys
      let keys := sortStrings keys
      let sb := keys.foldl
        (fun sb k => sb ++ (k ++ ": " ++ (finalMetadata.lookup k).getD "" ++ " ")) sb
      sb ++ "\n\n"
    else sb
  (List.range m.userLines.length).foldl
    (fun sb i =>
      let sb := sb ++ ("### Human \n " ++ W.humanPrompt ++ m.userLines.getD i "" ++ "\n\n")
      if i < m.botLines.length then
        sb ++ ("### Bot \n " ++ W.botPrompt ++ (m.botLines.getD i ⟨"", ∅⟩).Content ++ "\n\n")
      else sb)
    sb

/-- The UTF-8 bytes of a string: what Go's `len` counts and `s[:n]` slices. -/
def goBytes (s : String) : List UInt8 :=
  s.data.flatMap String.utf8EncodeChar

/-- Library call `strings.ReplaceAll(line, " ", "_")` on the bytes of `line`. -/
def replaceSpaces (line : List UInt8) : List UInt8 :=
  line.map (fun b => if b = 32 then 95 else b)

/-- The method `getFilename`; the result is given as bytes because the slice
`[:size]` cuts at a byte position. -/
def getFilename {W : Widgets} (m : ChatModel W) : List UInt8 :=
  let size := 30
  let line :=
    match m.userLines with
    | first :: _ =>
      if (goBytes first).length > size then (goBytes first).take size
      else goBytes first
    | [] =>
      if (goBytes m.systemPrompt).length > size then (goBytes m.systemPrompt).take size
      else goBytes m.systemPrompt
  replaceSpaces line

/-- The method `WriteChatToFile`: the transcript is written while `Update` runs; a
failed write or flush is a panic, otherwise the command is `tea.Quit`. -/
def WriteChatToFile {W : Widgets} (m : ChatModel W) : Outcome (Cmd W) :=
  match W.writeFile m.chatStartTime (getFilename m) (formatChatForMarkdown m) with
  | .writeFailed => .panic "Could not write to file"
  | .flushFailed => .panic "Could not flush buffer"
  | .ok => .ret .quit

/-- The method `renderConversation`. -/
def renderConversation {W : Widgets} (m : ChatModel W) : String :=
  let sb := ""
  let sb := sb ++ W.promptLabel
  let sb := sb ++ W.promptStyle (W.wordwrap m.systemPrompt W.width)
  (List.range m.userLines.length).foldl
    (fun sb index =>
      let sb := WriteUserLine W sb (W.wordwrap (m.userLines.getD index "") W.width)
      if index < m.botLines.length then
        WriteBotLine W sb (W.wordwrap (m.botLines.getD index ⟨"", ∅⟩).Content W.width)
      else sb)
    sb

/-- Lines 225-230 of `Update`: the message goes to the text area (when the user is
writing and it is the user's turn) or else to the viewport, and then to the metadata
widget. The result is the model and the commands `tiCmd`, `vpCmd` and `cmd`. -/
def updateWidgets {W : Widgets} (m : ChatModel W) (msg : Msg) :
    ChatModel W × Option W.WidgetCmd × Option W.WidgetCmd × Option W.WidgetCmd :=
  let routed : ChatModel W × Option W.WidgetCmd × Option W.WidgetCmd :=
    if m.writingMessage && isUserTurn m then
      let r := W.taUpdate m.currentMessage msg
      ({ m with currentMessage := r.1 }, r.2, none)
    else
      let r := W.vpUpdate m.viewport msg
      ({ m with viewport := r.1 }, none, r.2)
  let m := routed.1
  let md := W.mdUpdate m.metadata msg
  ({ m with metadata := md.1 }, routed.2.1, routed.2.2, md.2)

/-- Lines 245-260 of `Update`: the case "enter" of the key switch. -/
def updateEnter {W : Widgets} (m : ChatModel W) (cmd : Option W.WidgetCmd) :
    ChatModel W × Cmd W :=
  if isUserTurn m then
    if m.writingMessage && W.taValue m.currentMessage != "" then
      let m := { m with userLines := m.userLines ++ [W.taValue m.currentMessage] }
      let m := { m with currentMessage := W.taReset m.currentMessage }
      let m := { m with viewport := W.vpSetContent m.viewport (renderConversation m) }
      let m := { m with viewport := W.vpGotoBottom m.viewport }
      let m := { m with writingMessage := false }
      (m, .doBotMessage m)
    else if !m.writingMessage then
      let m := { m with writingMessage := true }
      (m, .widget cmd)
    else
      let m := { m with writingMessage := false }
      (m, .widget cmd)
  else (m, .widget cmd)

/-- The method `ChatModel.Update`: the next model and the command, or a panic. -/
def Update {W : Widgets} (m : ChatModel W) (msg : Msg) : Outcome (ChatModel W × Cmd W) :=
  let u := updateWidgets m msg
  let m := u.1
  let tiCmd := u.2.1
  let vpCmd := u.2.2.1
  let cmd := u.2.2.2
  match msg with
  | .windowSize _ height =>
    let m := { m with viewport := W.vpSetHeight m.viewport (wrap64 (height - 5)) }
    .ret (m, .batch tiCmd vpCmd cmd)
  | .key currentKey =>
    if currentKey = "ctrl+c" then
      let m := { m with quitting := true }
      match WriteChatToFile m with
      | .panic r => .panic r
      | .ret c => .ret (m, c)
    else if currentKey = "enter" then .ret (updateEnter m cmd)
    else .ret (m, .batch tiCmd vpCmd cmd)
  | .botResponse r =>
    let m := { m with botLines := m.botLines ++ [r] }
    let m := { m with currentMessage := W.taReset m.currentMessage }
    let m := { m with viewport := W.vpSetContent m.viewport (renderConversation m) }
    let m := { m with viewport := W.vpGotoBottom m.viewport }
    .ret (m, .batch tiCmd vpCmd cmd)
  | .other _ =>
    let sp := W.spUpdate m.spinner msg
    let m := { m with spinner := sp.1 }
    .ret (m, .batch tiCmd vpCmd sp.2)

/-- The event loop around the model: the model and the number of `DoBotMessage`
commands that `Update` has returned and whose response is not delivered yet. -/
structure Session (W : Widgets) where
  model : ChatModel W
  pending : Nat

/-- Number of backend calls a command starts. -/
def Cmd.dispatched {W : Widgets} (c : Cmd W) : Nat :=
  if c.isDoBotMessage then 1 else 0

/-- The sessions reachable from `InitialModel` by `Update` steps. A `BotResponse`
is delivered only for a `DoBotMessage` command that was returned, once each. -/
inductive Reachable (W : Widgets) : Session W → Prop where
  | init (systemPrompt modelName : String) (m : ChatModel W)
      (h : InitialModel W systemPrompt modelName = .ret m) :
      Reachable W ⟨m, 0⟩
  | event (s : Session W) (msg : Msg) (m : ChatModel W) (c : Cmd W)
      (hs : Reachable W s) (hmsg : ∀ r, msg ≠ .botResponse r)
      (h : Update s.model msg = .ret (m, c)) :
      Reachable W ⟨m, s.pending + c.dispatched⟩
  | response (s : Session W) (r : BotResponse) (m : ChatModel W) (c : Cmd W)
      (hs : Reachable W s) (hp : 0 < s.pending)
      (h : Update s.model (.botResponse r) = .ret (m, c)) :
      Reachable W ⟨m, s.pending - 1 + c.dispatched⟩

/-! ## Auxiliary definitions for the retry proofs -/

/-- Delay after `j` doublings in 64-bit arithmetic. -/
def doubled : Nat → Int → Int
  | 0, d => d
  | j + 1, d => doubled j (wrap64 (d * 2))

/-- Log of `k` failed attempts with the delays as the code computes them. -/
def failedLog : Nat → Int → List Ev
  | 0, _ => []
  | k + 1, d => Ev.call :: Ev.sleep d :: failedLog k (wrap64 (d * 2))


/-- A call that fails every time. -/
def alwaysFail : Unit → Unit → (Option String × Option String) × Unit :=
  fun _ _ => ((none, some "connection refused"), ())

/-- A call that fails `k` times and then succeeds; the state counts the calls. -/
def failsThenOk (k : Nat) : Nat → Unit → (Option String × Option String) × Nat :=
  fun s _ =>
    if s < k then ((none, some "timeout"), s + 1) else ((some "200 OK", none), s + 1)

/-! ## The conversation as the spec words it -/

/-- The user and bot turns interleaved in chronological order: each user turn, then
the bot turn that answers it when there is one. -/
def specTurns : List String → List BotResponse → List Message
  | [], _ => []
  | u :: us, [] => ⟨u, "USER"⟩ :: specTurns us []
  | u :: us, b :: bs => ⟨u, "USER"⟩ :: ⟨b.Content, "LLM"⟩ :: specTurns us bs

/-- The message list of the spec: the system prompt first, then the turns. -/
def specMessages (userLines : List String) (botLines : List BotResponse)
    (systemPrompt : String) : List Message :=
  ⟨systemPrompt, "SYSTEM"⟩ :: specTurns userLines botLines

/-! ## A concrete ToastJam environment -/

/-- An environment with the given token, a clock at 1700000000, decoders that know
the payloads `{}` and `{"exp":2000000000}`, and a network that refuses every
connection; the network state counts the attempts. -/
def sampleEnv (token : String) : ToastEnv Nat String :=
  { token := token
    now := 1700000000
    b64Decode := fun s =>
      if s = "e30=" then some "\x7b\x7d"
      else if s = "eyJleHAiOjIwMDAwMDAwMDB9" then some "\x7b\"exp\":2000000000\x7d"
      else none
    jsonUnmarshalMap := fun s =>
      if s = "\x7b\x7d" then some ∅
      else if s = "\x7b\"exp\":2000000000\x7d" then
        some (AList.singleton "exp" (JVal.number 2000000000))
      else none
    uuid := "00000000-0000-4000-8000-000000000000"
    timestamp := "2023-11-14T22:13:20.000Z"
    jsonMarshal := fun _ => .ok "body"
    clientDo := fun s _ => ((none, some "connection refused"), s + 1)
    readAll := fun r => .ok r
    closeBody := fun _ => none
    jsonUnmarshalResponse := fun _ => .error "unexpected end of JSON input" }

/-! ## A concrete set of widgets -/

/-- Widgets with the simplest behaviour: the text area is its text, a one-character
key appends to it and every other key leaves it alone; the viewport is its content;
the spinner counts its ticks; every file write succeeds. -/
def sampleWidgets : Widgets :=
  { TextArea := String
    Viewport := String
    Metadata := Unit
    Spinner := Nat
    Time := String
    Bot := String
    WidgetCmd := Unit
    taNew := ""
    taUpdate := fun t msg =>
      match msg with
      | .key k => if k.length = 1 then (t ++ k, none) else (t, none)
      | _ => (t, none)
    taValue := fun t => t
    taReset := fun _ => ""
    vpNew := fun _ _ => ""
    vpUpdate := fun v _ => (v, none)
    vpSetHeight := fun v _ => v
    vpSetContent := fun _ s => s
    vpGotoBottom := fun v => v
    mdNew := ()
    mdUpdate := fun _ _ => ((), none)
    spNew := 0
    spUpdate := fun s _ => (s + 1, some ())
    timeNow := "2023-November-14 22:13:20"
    timeFormat := fun t _ => t
    toastJam := "Toast Jam"
    getGPTModel := fun n => if n = "gpt-4" then some n else none
    getChatBot := fun _ => none
    boxWidth := 80
    width := 78
    humanPrompt := "You: "
    botPrompt := "Bot: "
    humanStyle := fun s => s
    botStyle := fun s => s
    promptStyle := fun s => s
    promptLabel := "Initial Prompt: "
    wordwrap := fun s _ => s
    writeFile := fun _ _ _ => .ok }

/-- A model over the sample widgets with the given conversation and input text. -/
def sampleModel (systemPrompt : String) (userLines : List String)
    (botLines : List BotResponse) (input : String) (writingMessage : Bool) :
    ChatModel sampleWidgets :=
  { systemPrompt := systemPrompt
    userLines := userLines
    botLines := botLines
    currentMessage := input
    viewport := ("" : String)
    metadata := ()
    quitting := false
    spinner := (0 : Nat)
    chatStartTime := ("2023-November-14 22:13:20" : String)
    chatBot := ("Toast Jam" : String)
    writingMessage := writingMessage }

/-- The environment `sampleEnv` on a network where only the requests to the ToastJam
URL fail; every other request is answered. -/
def toastOnlyDownEnv (token : String) : ToastEnv Nat String :=
  { sampleEnv token with
    clientDo := fun s rq =>
      if rq.url = "https://preprod.eng.toasttab.com/api/service/ds-model/v1/scone/ds-toast-jam/"
      then ((none, some "connection refused"), s + 1)
      else ((some "pong", none), s + 1) }

/-! ## The transcript as the spec words it -/

/-- The block of a user turn. -/
def humanBlock (W : Widgets) (text : String) : String :=
  "### Human \n " ++ W.humanPrompt ++ text ++ "\n\n"

/-- The block of a bot turn. -/
def botBlock (W : Widgets) (text : String) : String :=
  "### Bot \n " ++ W.botPrompt ++ text ++ "\n\n"

/-- One block per turn in chronological order: each user turn, then the bot turn that
answers it when there is one. -/
def specBlocks (W : Widgets) : List String → List BotResponse → List String
  | [], _ => []
  | u :: us, [] => humanBlock W u :: specBlocks W us []
  | u :: us, b :: bs => humanBlock W u :: botBlock W b.Content :: specBlocks W us bs

/-- The metadata line for keys listed in the order `ks`. -/
def metadataLineOf (metadata : GoMap String) (ks : List String) : String :=
  "## Metadata - " ++
    String.join (ks.map (fun k => k ++ ": " ++ (metadata.lookup k).getD "" ++ " ")) ++ "\n\n"

/-- The metadata `{"a": "1", "b": "2"}`, entered in the order b, a. -/
def exampleMetadata : GoMap String :=
  AList.insert "b" "2" (AList.singleton "a" "1")

/-! ## The filename fragment as the spec words it -/

/-- The first user message, or the system prompt when there is no user message. -/
def firstLine {W : Widgets} (m : ChatModel W) : String :=
  match m.userLines with
  | first :: _ => first
  | [] => m.systemPrompt

/-- The first 30 characters of a text with every space replaced by an underscore. -/
def specFilename (line : String) : String :=
  String.mk ((line.data.take 30).map (fun c => if c = ' ' then '_' else c))

/-! ## Facts about `Retry` -/

theorem Retry_fail {σ Q R E : Type} (a d : Int) (fn : σ → Q → (Option R × Option E) × σ)
    (req : Q) (w : World σ) (e : E) (he : (fn w.net req).1.2 = some e)
    (ha : wrap64 (a - 1) > 0) :
    Retry a d fn req w =
      Retry (wrap64 (a - 1)) (wrap64 (d * 2)) fn req
        ⟨(fn w.net req).2, w.log ++ [Ev.call] ++ [Ev.sleep d]⟩ := by
  rw [Retry]
  simp only [he, ha, dite_true]

theorem Retry_last {σ Q R E : Type} (a d : Int) (fn : σ → Q → (Option R × Option E) × σ)
    (req : Q) (w : World σ) (e : E) (he : (fn w.net req).1.2 = some e)
    (ha : ¬ wrap64 (a - 1) > 0) :
    Retry a d fn req w = ((none, some e), ⟨(fn w.net req).2, w.log ++ [Ev.call]⟩) := by
  rw [Retry]
  simp only [he, ha, dite_false]

theorem Retry_ok {σ Q R E : Type} (a d : Int) (fn : σ → Q → (Option R × Option E) × σ)
    (req : Q) (w : World σ) (he : (fn w.net req).1.2 = none) :
    Retry a d fn req w = (((fn w.net req).1.1, none), ⟨(fn w.net req).2, w.log ++ [Ev.call]⟩) := by
  rw [Retry]
  simp only [he]

theorem wrap64_id (x : Int) (h1 : -9223372036854775808 ≤ x) (h2 : x < 9223372036854775808) :
    wrap64 x = x := by
  unfold wrap64
  omega

theorem Retry_failed_steps {σ Q R E : Type} (fn : σ → Q → (Option R × Option E) × σ) (req : Q) :
    ∀ (k n : Nat) (d : Int) (w : World σ), k < n → (n : Int) < 9223372036854775808 →
      (∀ i, i < k → (nthResult fn req w.net i).2 ≠ none) →
      Retry (n : Int) d fn req w =
        Retry ((n - k : Nat) : Int) (doubled k d) fn req
          ⟨stateBefore fn req k w.net, w.log ++ failedLog k d⟩ := by
  intro k
  induction k with
  | zero =>
    intro n d w _ _ _
    simp [doubled, failedLog, stateBefore]
  | succ k ih =>
    intro n d w hk hn hf
    have h0 := hf 0 (Nat.succ_pos k)
    simp only [nthResult, stateBefore] at h0
    obtain ⟨e, he⟩ := Option.ne_none_iff_exists'.mp h0
    have hw : wrap64 ((n : Int) - 1) = ((n - 1 : Nat) : Int) := by
      rw [wrap64_id] <;> omega
    have ha : wrap64 ((n : Int) - 1) > 0 := by rw [hw]; omega
    rw [Retry_fail _ _ _ _ _ e he ha, hw]
    rw [ih (n - 1) (wrap64 (d * 2)) _ (by omega) (by omega)]
    · have : n - 1 - k = n - (k + 1) := by omega
      simp [doubled, failedLog, stateBefore, this, List.append_assoc]
    · intro i hi
      have := hf (i + 1) (by omega)
      simpa [nthResult, stateBefore] using this

theorem failedLog_eq : ∀ (k : Nat) (d : Int),
    (∀ j, j < k → -9223372036854775808 ≤ 2 ^ j * d ∧ 2 ^ j * d < 9223372036854775808) →
    failedLog k d = (List.range k).flatMap (fun j => [Ev.call, Ev.sleep (2 ^ j * d)]) := by
  intro k
  induction k with
  | zero => intro d _; simp [failedLog]
  | succ k ih =>
    intro d h
    cases k with
    | zero => simp [failedLog, List.range_succ]
    | succ k =>
      have h1 := h 1 (by omega)
      have hw : wrap64 (d * 2) = d * 2 := by
        apply wrap64_id <;> omega
      have hih := ih (d * 2) (by
        intro j hj
        have := h (j + 1) (by omega)
        have e : (2 : Int) ^ (j + 1) * d = 2 ^ j * (d * 2) := by ring
        rw [← e]; exact this)
      rw [failedLog, hw, hih, List.range_succ_eq_map (k + 1)]
      simp only [List.flatMap_cons, List.flatMap_map, pow_zero, one_mul, List.cons_append,
        List.nil_append, List.cons.injEq, true_and]
      congr 1
      funext j
      have e : (2 : Int) ^ (j + 1) * d = 2 ^ j * (d * 2) := by ring
      simp [Function.comp, e]

theorem sleepsOf_append (a b : List Ev) : sleepsOf (a ++ b) = sleepsOf a ++ sleepsOf b := by
  induction a with
  | nil => rfl
  | cons x xs ih => cases x <;> simp [sleepsOf, ih]

theorem callCount_append (a b : List Ev) : callCount (a ++ b) = callCount a + callCount b := by
  simp [callCount, List.filter_append]

theorem range_flatMap_succ (k : Nat) (d : Int) :
    (List.range (k + 1)).flatMap (fun j => [Ev.call, Ev.sleep (2 ^ j * d)]) =
      (List.range k).flatMap (fun j => [Ev.call, Ev.sleep (2 ^ j * d)]) ++
        [Ev.call, Ev.sleep (2 ^ k * d)] := by
  simp [List.range_succ, List.flatMap_append]

theorem callCount_backoffLog (d : Int) (k : Nat) : callCount (backoffLog d k) = k + 1 := by
  induction k with
  | zero => simp [backoffLog, callCount]
  | succ k ih =>
    simp only [backoffLog, callCount_append] at ih ⊢
    rw [range_flatMap_succ, callCount_append]
    have : callCount [Ev.call, Ev.sleep (2 ^ k * d)] = 1 := by simp [callCount]
    omega

theorem sleepsOf_backoffLog (d : Int) (k : Nat) :
    sleepsOf (backoffLog d k) = (List.range k).map (fun j => 2 ^ j * d) := by
  induction k with
  | zero => simp [backoffLog, sleepsOf]
  | succ k ih =>
    simp only [backoffLog, sleepsOf_append] at ih ⊢
    rw [range_flatMap_succ, sleepsOf_append, List.range_succ, List.map_append]
    have h1 : sleepsOf [Ev.call] = [] := rfl
    rw [h1, List.append_nil] at ih ⊢
    rw [ih]
    simp [sleepsOf]

theorem sum_doubling (d : Int) (k : Nat) :
    ((List.range k).map (fun j => 2 ^ j * d)).sum = d * (2 ^ k - 1) := by
  induction k with
  | zero => simp
  | succ k ih =>
    rw [List.range_succ, List.map_append, List.sum_append, ih]
    simp
    ring

/-! ## C3, C4: the retrying caller -/

/-- C3 (as amended): for every attempts `n ≥ 1`, every initial delay `d` whose doublings
`d, 2d, ..., 2^(n-2)*d` stay in the 64-bit range of `time.Duration`, and every `fn`
that fails on each of its first `n` calls, `Retry(n, d, fn, req)` invokes `fn` exactly
`n` times, sleeps exactly `n-1` times with the durations `d, 2d, ..., 2^(n-2)*d` in
that order (no sleep after the last attempt; the requested durations sum to
`d*(2^(n-1) - 1)`), and returns a nil response with the error of the last invocation. -/
theorem Retry_backoff_growth {σ Q R E : Type} (fn : σ → Q → (Option R × Option E) × σ)
    (req : Q) (w : World σ) (n : Nat) (d : Int)
    (hn : 1 ≤ n) (hn64 : (n : Int) < 9223372036854775808)
    (hd : ∀ j : Nat, j + 1 < n →
      -9223372036854775808 ≤ 2 ^ j * d ∧ 2 ^ j * d < 9223372036854775808)
    (hfail : ∀ i, i < n → (nthResult fn req w.net i).2 ≠ none) :
    (Retry (n : Int) d fn req w).1 = (none, (nthResult fn req w.net (n - 1)).2) ∧
    (Retry (n : Int) d fn req w).2.log = w.log ++ backoffLog d (n - 1) ∧
    (Retry (n : Int) d fn req w).2.net = stateBefore fn req n w.net ∧
    callCount (backoffLog d (n - 1)) = n ∧
    sleepsOf (backoffLog d (n - 1)) = (List.range (n - 1)).map (fun j => 2 ^ j * d) ∧
    (sleepsOf (backoffLog d (n - 1))).sum = d * (2 ^ (n - 1) - 1) := by
  have hsteps := Retry_failed_steps fn req (n - 1) n d w (by omega) hn64
    (fun i hi => hfail i (by omega))
  have hlast := hfail (n - 1) (by omega)
  obtain ⟨e, he⟩ := Option.ne_none_iff_exists'.mp hlast
  have h1 : ((n - (n - 1) : Nat) : Int) = 1 := by omega
  have hlog := failedLog_eq (n - 1) d (fun j hj => hd j (by omega))
  have hnet : stateBefore fn req n w.net = (fn (stateBefore fn req (n - 1) w.net) req).2 := by
    have : ∀ (k : Nat) (s : σ),
        stateBefore fn req (k + 1) s = (fn (stateBefore fn req k s) req).2 := by
      intro k
      induction k with
      | zero => intro s; rfl
      | succ k ih => intro s; rw [stateBefore, ih]; rfl
    have h2 := this (n - 1) w.net
    have h3 : n - 1 + 1 = n := by omega
    rw [h3] at h2
    exact h2
  have he2 : (fn (stateBefore fn req (n - 1) w.net) req).1.2 = some e := he
  rw [hsteps, h1,
    Retry_last 1 _ fn req ⟨stateBefore fn req (n - 1) w.net, w.log ++ failedLog (n - 1) d⟩
      e he2 (by decide)]
  refine ⟨?_, ?_, ?_, ?_, sleepsOf_backoffLog d (n - 1), ?_⟩
  · simp only [nthResult, he2]
  · simp only [backoffLog, hlog, List.append_assoc]
  · exact hnet.symm
  · rw [callCount_backoffLog]; omega
  · rw [sleepsOf_backoffLog, sum_doubling]

/-- C3, witness: three attempts with initial delay 1 against a call that always fails. -/
theorem Retry_backoff_growth_witness :
    (Retry 3 1 alwaysFail () ⟨(), []⟩).1 = (none, some "connection refused") ∧
    (Retry 3 1 alwaysFail () ⟨(), []⟩).2.log =
      [Ev.call, Ev.sleep 1, Ev.call, Ev.sleep 2, Ev.call] := by
  have h := Retry_backoff_growth alwaysFail () ⟨(), []⟩ 3 1 (by decide) (by decide)
    (by intro j hj; have hj2 : j < 2 := by omega
        interval_cases j <;> decide)
    (by intro i _; simp [nthResult, alwaysFail])
  refine ⟨?_, ?_⟩
  · simpa [nthResult, alwaysFail] using h.1
  · have h2 := h.2.1
    simp only [Nat.cast_ofNat] at h2
    rw [h2]
    decide

/-- C3, counterexample: with three attempts and initial delay `2^62` the second sleep is
requested with `-2^63`, not with `2 * 2^62`: the doubling overflows `time.Duration`. -/
theorem Retry_doubling_overflows :
    sleepsOf (Retry 3 4611686018427387904 alwaysFail () ⟨(), []⟩).2.log =
      [4611686018427387904, -9223372036854775808] ∧
    sleepsOf (Retry 3 4611686018427387904 alwaysFail () ⟨(), []⟩).2.log ≠
      (List.range (3 - 1)).map (fun j => 2 ^ j * 4611686018427387904) := by
  have h : sleepsOf (Retry 3 4611686018427387904 alwaysFail () ⟨(), []⟩).2.log =
      [4611686018427387904, -9223372036854775808] := by
    simp [Retry, wrap64, alwaysFail, sleepsOf]
  refine ⟨h, ?_⟩
  rw [h]
  decide

/-- C4 (as amended): for every attempts `n`, every `k < n`, every initial delay `d` whose
doublings `d, 2d, ..., 2^(k-1)*d` stay in the 64-bit range of `time.Duration`, and every
`fn` whose first `k` calls fail and whose next call succeeds with response `r`,
`Retry(n, d, fn, req)` invokes `fn` exactly `k+1` times, sleeps exactly `k` times with
the durations `d, 2d, ..., 2^(k-1)*d`, and returns `(r, nil)`. -/
theorem Retry_success_path {σ Q R E : Type} (fn : σ → Q → (Option R × Option E) × σ)
    (req : Q) (w : World σ) (n k : Nat) (d : Int) (r : Option R)
    (hk : k < n) (hn64 : (n : Int) < 9223372036854775808)
    (hd : ∀ j : Nat, j < k →
      -9223372036854775808 ≤ 2 ^ j * d ∧ 2 ^ j * d < 9223372036854775808)
    (hfail : ∀ i, i < k → (nthResult fn req w.net i).2 ≠ none)
    (hok : nthResult fn req w.net k = (r, none)) :
    (Retry (n : Int) d fn req w).1 = (r, none) ∧
    (Retry (n : Int) d fn req w).2.log = w.log ++ backoffLog d k ∧
    callCount (backoffLog d k) = k + 1 ∧
    sleepsOf (backoffLog d k) = (List.range k).map (fun j => 2 ^ j * d) ∧
    (sleepsOf (backoffLog d k)).length = k := by
  have hsteps := Retry_failed_steps fn req k n d w hk hn64 hfail
  have hlog := failedLog_eq k d hd
  have he : (fn (stateBefore fn req k w.net) req).1.2 = none := by
    have := congrArg Prod.snd hok
    simpa [nthResult] using this
  have hr : (fn (stateBefore fn req k w.net) req).1.1 = r := by
    have := congrArg Prod.fst hok
    simpa [nthResult] using this
  rw [hsteps, Retry_ok _ _ fn req _ he]
  refine ⟨?_, ?_, callCount_backoffLog d k, sleepsOf_backoffLog d k, ?_⟩
  · simp only [hr]
  · simp only [backoffLog, hlog, List.append_assoc]
  · rw [sleepsOf_backoffLog]; simp

/-- C4, witness: a call that fails once and then succeeds, three attempts, delay 7:
two invocations, one sleep of 7, the successful response. -/
theorem Retry_success_path_witness :
    (Retry 3 7 (failsThenOk 1) () ⟨0, []⟩).1 = (some "200 OK", none) ∧
    (Retry 3 7 (failsThenOk 1) () ⟨0, []⟩).2.log = [Ev.call, Ev.sleep 7, Ev.call] := by
  have h := Retry_success_path (failsThenOk 1) () ⟨0, []⟩ 3 1 7 (some "200 OK")
    (by decide) (by decide)
    (by intro j hj; interval_cases j; decide)
    (by intro i hi; interval_cases i; simp [nthResult, failsThenOk, stateBefore])
    (by simp [nthResult, failsThenOk, stateBefore])
  refine ⟨h.1, ?_⟩
  have h2 := h.2.1
  simp only [Nat.cast_ofNat] at h2
  rw [h2]
  decide

/-- C4, counterexample: a call that fails twice and then succeeds, with initial delay
`2^62`: the second sleep is requested with `-2^63`, not with `2 * 2^62`. -/
theorem Retry_success_doubling_overflows :
    (Retry 3 4611686018427387904 (failsThenOk 2) () ⟨0, []⟩).1 = (some "200 OK", none) ∧
    sleepsOf (Retry 3 4611686018427387904 (failsThenOk 2) () ⟨0, []⟩).2.log =
      [4611686018427387904, -9223372036854775808] ∧
    sleepsOf (Retry 3 4611686018427387904 (failsThenOk 2) () ⟨0, []⟩).2.log ≠
      (List.range 2).map (fun j => 2 ^ j * 4611686018427387904) := by
  have h : Retry 3 4611686018427387904 (failsThenOk 2) () ⟨0, []⟩ =
      ((some "200 OK", none),
        ⟨3, [Ev.call, Ev.sleep 4611686018427387904, Ev.call,
          Ev.sleep (-9223372036854775808), Ev.call]⟩) := by
    simp [Retry, wrap64, failsThenOk]
  rw [h]
  refine ⟨rfl, by simp [sleepsOf], ?_⟩
  simp [sleepsOf]
  decide

/-! ## C7: the request embeds the whole conversation -/

theorem specTurns_nil_right (us : List String) :
    specTurns us [] = us.map (fun u => (⟨u, "USER"⟩ : Message)) := by
  induction us with
  | nil => rfl
  | cons u us ih => simp [specTurns, ih]

theorem constructLoop_eq (userLines : List String) (botLines : List BotResponse) :
    ∀ (m c : Nat) (acc : List Message), c + m = userLines.length →
      (List.range' c m).foldl
        (fun messages i =>
          let messages := messages ++ [(⟨userLines.getD i "", "USER"⟩ : Message)]
          if i < botLines.length then
            messages ++ [⟨(botLines.getD i ⟨"", ∅⟩).Content, "LLM"⟩]
          else messages)
        acc = acc ++ specTurns (userLines.drop c) (botLines.drop c) := by
  intro m
  induction m with
  | zero =>
    intro c acc h
    have : userLines.drop c = [] := List.drop_eq_nil_of_le (by omega)
    simp [this, specTurns]
  | succ m ih =>
    intro c acc h
    have hc : c < userLines.length := by omega
    rw [List.range'_succ, List.foldl_cons, ih (c + 1) _ (by omega)]
    rw [List.drop_eq_getElem_cons hc, List.getD_eq_getElem _ _ hc]
    by_cases hb : c < botLines.length
    · rw [List.drop_eq_getElem_cons hb, List.getD_eq_getElem _ _ hb]
      simp only [hb, if_true, specTurns, List.append_assoc, List.singleton_append,
        List.cons_append, List.nil_append]
    · have h1 : botLines.drop c = [] := List.drop_eq_nil_of_le (by omega)
      have h2 : botLines.drop (c + 1) = [] := List.drop_eq_nil_of_le (by omega)
      simp only [hb, if_false, h1, h2, specTurns, List.append_assoc, List.singleton_append]

theorem specTurns_length : ∀ (us : List String) (bs : List BotResponse),
    bs.length ≤ us.length → (specTurns us bs).length = us.length + bs.length
  | [], bs, h => by
    have : bs = [] := List.eq_nil_of_length_eq_zero (by simpa using h)
    simp [specTurns, this]
  | u :: us, [], _ => by simp [specTurns_nil_right]
  | u :: us, b :: bs, h => by
    have := specTurns_length us bs (by simpa using h)
    simp [specTurns, this]
    omega

theorem specTurns_positions : ∀ (us : List String) (bs : List BotResponse),
    bs.length ≤ us.length → us.length ≤ bs.length + 1 →
    (∀ i, i < us.length →
      (specTurns us bs).get? (2 * i) = some ⟨us.getD i "", "USER"⟩) ∧
    (∀ i, i < bs.length →
      (specTurns us bs).get? (2 * i + 1) = some ⟨(bs.getD i ⟨"", ∅⟩).Content, "LLM"⟩)
  | [], bs, h, _ => by
    have : bs = [] := List.eq_nil_of_length_eq_zero (by simpa using h)
    subst this
    simp
  | u :: us, [], _, h2 => by
    have : us = [] := List.eq_nil_of_length_eq_zero (by simpa using h2)
    subst this
    refine ⟨?_, by simp⟩
    intro i hi
    have : i = 0 := by simpa using hi
    subst this
    simp [specTurns]
  | u :: us, b :: bs, h1, h2 => by
    have ih := specTurns_positions us bs (by simpa using h1) (by simpa using h2)
    refine ⟨?_, ?_⟩
    · intro i hi
      cases i with
      | zero => simp [specTurns]
      | succ j =>
        have := ih.1 j (by simpa using hi)
        have e : 2 * (j + 1) = 2 * j + 1 + 1 := by ring
        rw [e]
        simpa [specTurns] using this
    · intro i hi
      cases i with
      | zero => simp [specTurns]
      | succ j =>
        have := ih.2 j (by simpa using hi)
        have e : 2 * (j + 1) + 1 = 2 * j + 1 + 1 + 1 := by ring
        rw [e]
        simpa [specTurns] using this

theorem ConstructMessages_zero (userLines : List String) (botLines : List BotResponse)
    (systemPrompt : String) :
    ConstructMessages userLines botLines systemPrompt 0 =
      .ret (specMessages userLines botLines systemPrompt) := by
  unfold ConstructMessages specMessages
  have h := constructLoop_eq userLines botLines userLines.length 0
    [⟨systemPrompt, "SYSTEM"⟩] (by omega)
  simp only [List.drop_zero] at h
  simp only [lt_self_iff_false, if_false, Int.toNat_zero, Nat.sub_zero, List.nil_append, h,
    List.singleton_append]

/-- C7: for every system prompt and all user and bot turns with
`len(botLines) ≤ len(userLines)`, `ConstructMessages(userLines, botLines, systemPrompt, 0)`
returns the list that starts with `{systemPrompt, "SYSTEM"}` and continues, in increasing
order of `i`, with `{userLines[i], "USER"}` followed (when `i < len(botLines)`) by
`{botLines[i].Content, "LLM"}`; its length is `1 + len(userLines) + len(botLines)`. -/
theorem ConstructMessages_whole_conversation (userLines : List String)
    (botLines : List BotResponse) (systemPrompt : String)
    (hle : botLines.length ≤ userLines.length)
    (hge : userLines.length ≤ botLines.length + 1) :
    ConstructMessages userLines botLines systemPrompt 0 =
      .ret (⟨systemPrompt, "SYSTEM"⟩ :: specTurns userLines botLines) ∧
    (⟨systemPrompt, "SYSTEM"⟩ :: specTurns userLines botLines).length =
      1 + userLines.length + botLines.length ∧
    (∀ i, i < userLines.length →
      (specTurns userLines botLines).get? (2 * i) = some ⟨userLines.getD i "", "USER"⟩) ∧
    (∀ i, i < botLines.length →
      (specTurns userLines botLines).get? (2 * i + 1) =
        some ⟨(botLines.getD i ⟨"", ∅⟩).Content, "LLM"⟩) := by
  have hpos := specTurns_positions userLines botLines hle hge
  refine ⟨ConstructMessages_zero userLines botLines systemPrompt, ?_, hpos.1, hpos.2⟩
  rw [List.length_cons, specTurns_length userLines botLines hle]; omega

/-- C7, witness: two user turns and one bot turn. -/
theorem ConstructMessages_whole_conversation_witness :
    ConstructMessages ["Hi", "How are you?"] [⟨"Hello!", ∅⟩] "You are a helpful assistant" 0 =
      .ret [⟨"You are a helpful assistant", "SYSTEM"⟩, ⟨"Hi", "USER"⟩, ⟨"Hello!", "LLM"⟩,
        ⟨"How are you?", "USER"⟩] :=
  (ConstructMessages_whole_conversation ["Hi", "How are you?"] [⟨"Hello!", ∅⟩]
    "You are a helpful assistant" (by decide) (by decide)).1

/-! ## C5, C6: the ToastJam backend -/

/-- A credential that `getRemainingTokenTime` rejects with an error is reported as the
content of the response, with empty metadata and without any network call. -/
theorem GetBotResponse_of_token_error {σ Resp : Type} (env : ToastEnv σ Resp)
    (userLines : List String) (botLines : List BotResponse) (systemPrompt : String)
    (w : World σ) (t : Int) (e : String)
    (h : getRemainingTokenTime env env.token = .ret (t, some e)) :
    GetBotResponse env userLines botLines systemPrompt w = (.ret ⟨e, ∅⟩, w) := by
  simp only [GetBotResponse, h]

/-- The credentials the source rejects: an empty one, one that does not have three
dot-separated parts, one whose middle part is not base64 or not JSON, an expired one. -/
theorem getRemainingTokenTime_rejects {σ Resp : Type} (env : ToastEnv σ Resp)
    (toastToken : String) :
    (toastToken = "" → getRemainingTokenTime env toastToken = .ret (0, some "no token")) ∧
    (toastToken ≠ "" → (stringsSplit toastToken '.').length ≠ 3 →
      getRemainingTokenTime env toastToken = .ret (0, some "auth token invalid")) ∧
    (toastToken ≠ "" → (stringsSplit toastToken '.').length = 3 →
      env.b64Decode ((stringsSplit toastToken '.').getD 1 "") = none →
      getRemainingTokenTime env toastToken = .ret (0, some "auth token invalid")) ∧
    (∀ raw, toastToken ≠ "" → (stringsSplit toastToken '.').length = 3 →
      env.b64Decode ((stringsSplit toastToken '.').getD 1 "") = some raw →
      env.jsonUnmarshalMap raw = none →
      getRemainingTokenTime env toastToken = .ret (0, some "auth token invalid")) ∧
    (∀ raw info exp, toastToken ≠ "" → (stringsSplit toastToken '.').length = 3 →
      env.b64Decode ((stringsSplit toastToken '.').getD 1 "") = some raw →
      env.jsonUnmarshalMap raw = some info →
      info.lookup "exp" = some (JVal.number exp) → wrap64 (exp - env.now) < 0 →
      getRemainingTokenTime env toastToken = .ret (0, some "auth token expired")) := by
  refine ⟨?_, ?_, ?_, ?_, ?_⟩
  · intro h; simp only [getRemainingTokenTime, h, if_true]
  · intro h1 h2; simp only [getRemainingTokenTime, h1, h2, if_false, if_true, ne_eq,
      not_false_eq_true]
  · intro h1 h2 h3
    simp only [getRemainingTokenTime, h1, h2, h3, if_false, ne_eq, not_true_eq_false]
  · intro raw h1 h2 h3 h4
    simp only [getRemainingTokenTime, h1, h2, h3, h4, if_false, ne_eq, not_true_eq_false]
  · intro raw info exp h1 h2 h3 h4 h5 h6
    simp only [getRemainingTokenTime, h1, h2, h3, h4, h5, h6, if_false, if_true, ne_eq,
      not_true_eq_false]

theorem getRemainingTokenTime_no_exp {σ Resp : Type} (env : ToastEnv σ Resp)
    (toastToken raw : String) (info : GoMap JVal)
    (hne : toastToken ≠ "") (hparts : (stringsSplit toastToken '.').length = 3)
    (hb64 : env.b64Decode ((stringsSplit toastToken '.').getD 1 "") = some raw)
    (hjson : env.jsonUnmarshalMap raw = some info)
    (hexp : ∀ x, info.lookup "exp" ≠ some (JVal.number x)) :
    getRemainingTokenTime env toastToken =
      .panic (assertFloat64Panic (info.lookup "exp")) := by
  simp only [getRemainingTokenTime, hne, if_false, hparts, ne_eq, not_true_eq_false, hb64, hjson]

/-- C5, the failing case: a credential with three dot-separated parts whose middle part
decodes to a JSON object without a numeric `exp` field makes `GetBotResponse` panic
(the unchecked type assertion `toastInfo["exp"].(float64)`) instead of returning the
response "auth token invalid". -/
theorem GetBotResponse_panics_without_exp {σ Resp : Type} (env : ToastEnv σ Resp)
    (userLines : List String) (botLines : List BotResponse) (systemPrompt : String)
    (w : World σ) (raw : String) (info : GoMap JVal)
    (hne : env.token ≠ "") (hparts : (stringsSplit env.token '.').length = 3)
    (hb64 : env.b64Decode ((stringsSplit env.token '.').getD 1 "") = some raw)
    (hjson : env.jsonUnmarshalMap raw = some info)
    (hexp : ∀ x, info.lookup "exp" ≠ some (JVal.number x)) :
    (GetBotResponse env userLines botLines systemPrompt w).1 =
      .panic (assertFloat64Panic (info.lookup "exp")) ∧
    (GetBotResponse env userLines botLines systemPrompt w).1.returned = false := by
  have h := getRemainingTokenTime_no_exp env env.token raw info hne hparts hb64 hjson hexp
  simp only [GetBotResponse, h, Outcome.returned, and_self]

/-- C5, the failing input: the credential `a.e30=.b`, whose middle part is the base64
form of `{}`. -/
theorem GetBotResponse_panics_without_exp_witness :
    (GetBotResponse (sampleEnv "a.e30=.b") ["Hi"] [] "You are a helpful assistant"
      ⟨0, []⟩).1.returned = false :=
  (GetBotResponse_panics_without_exp (sampleEnv "a.e30=.b") ["Hi"] []
    "You are a helpful assistant" ⟨0, []⟩ "\x7b\x7d" ∅
    (by decide) (by decide) (by decide) (by simp [sampleEnv]) (by intro x; simp)).2

theorem stateBefore_succ {σ Q R E : Type} (fn : σ → Q → (Option R × Option E) × σ) (req : Q) :
    ∀ (k : Nat) (s : σ),
      stateBefore fn req (k + 1) s = (fn (stateBefore fn req k s) req).2 := by
  intro k
  induction k with
  | zero => intro s; rfl
  | succ k ih => intro s; rw [stateBefore, ih]; rfl

/-- When every one of the `n` attempts fails, `Retry` gives up with the last error. -/
theorem Retry_exhausted {σ Q R E : Type} (fn : σ → Q → (Option R × Option E) × σ)
    (req : Q) (w : World σ) (n : Nat) (d : Int)
    (hn : 1 ≤ n) (hn64 : (n : Int) < 9223372036854775808)
    (hfail : ∀ i, i < n → (nthResult fn req w.net i).2 ≠ none) :
    ∃ e, (nthResult fn req w.net (n - 1)).2 = some e ∧
      Retry (n : Int) d fn req w =
        ((none, some e),
          ⟨stateBefore fn req n w.net, w.log ++ failedLog (n - 1) d ++ [Ev.call]⟩) := by
  have hsteps := Retry_failed_steps fn req (n - 1) n d w (by omega) hn64
    (fun i hi => hfail i (by omega))
  obtain ⟨e, he⟩ := Option.ne_none_iff_exists'.mp (hfail (n - 1) (by omega))
  have he2 : (fn (stateBefore fn req (n - 1) w.net) req).1.2 = some e := he
  have h1 : ((n - (n - 1) : Nat) : Int) = 1 := by omega
  have h2 := stateBefore_succ fn req (n - 1) w.net
  have h3 : n - 1 + 1 = n := by omega
  rw [h3] at h2
  refine ⟨e, he, ?_⟩
  rw [hsteps, h1,
    Retry_last 1 _ fn req ⟨stateBefore fn req (n - 1) w.net, w.log ++ failedLog (n - 1) d⟩
      e he2 (by decide), h2]

/-- When the HTTP call for the request that `makeCall` builds fails on all three
attempts, `makeCall` panics with the error of the third attempt:
`if err != nil { panic(err) }` after `Retry`. -/
theorem makeCall_transport_failure {σ Resp : Type} (env : ToastEnv σ Resp)
    (userLines : List String) (botLines : List BotResponse) (systemPrompt toastToken : String)
    (w : World σ) (messages : List Message) (body : String)
    (hmsgs : ConstructMessages userLines botLines systemPrompt 0 = .ret messages)
    (hmarshal : env.jsonMarshal (toastRequest env messages) = .ok body)
    (hfail : ∀ i, i < 3 →
      (nthResult env.clientDo (toastHttpRequest toastToken body) w.net i).2 ≠ none) :
    ∃ e, (nthResult env.clientDo (toastHttpRequest toastToken body) w.net 2).2 = some e ∧
      makeCall env userLines botLines systemPrompt 0 toastToken w =
        (.panic e, ⟨stateBefore env.clientDo (toastHttpRequest toastToken body) 3 w.net,
          w.log ++ [Ev.call, Ev.sleep 1, Ev.call, Ev.sleep 2, Ev.call]⟩) := by
  obtain ⟨e, he, hr⟩ := Retry_exhausted env.clientDo (toastHttpRequest toastToken body) w 3 1
    (by decide) (by decide) hfail
  refine ⟨e, he, ?_⟩
  have hr2 : Retry 3 1 env.clientDo (toastHttpRequest toastToken body) w =
      ((none, some e), ⟨stateBefore env.clientDo (toastHttpRequest toastToken body) 3 w.net,
        w.log ++ [Ev.call, Ev.sleep 1, Ev.call, Ev.sleep 2, Ev.call]⟩) := by
    have h3 : ((3 : Nat) : Int) = 3 := rfl
    rw [h3] at hr
    rw [hr]
    have hw : wrap64 2 = 2 := by decide
    simp [failedLog, hw]
  unfold makeCall
  rw [hmsgs]
  simp only
  rw [hmarshal]
  simp only
  rw [hr2]

/-- C6 (as amended): for every conversation and every valid, unexpired credential, if the
HTTP call for the request that `makeCall` builds from the conversation fails on all 3
attempts made through `Retry`, `GetBotResponse` returns no `BotResponse`: it panics
with the error of the third attempt on that request, after exactly three invocations
separated by sleeps of 1 and 2. -/
theorem GetBotResponse_transport_failure_panics {σ Resp : Type} (env : ToastEnv σ Resp)
    (userLines : List String) (botLines : List BotResponse) (systemPrompt : String)
    (w : World σ) (t : Int) (messages : List Message) (body : String)
    (hcred : getRemainingTokenTime env env.token = .ret (t, none))
    (hmsgs : ConstructMessages userLines botLines systemPrompt 0 = .ret messages)
    (hmarshal : env.jsonMarshal (toastRequest env messages) = .ok body)
    (hfail : ∀ i, i < 3 →
      (nthResult env.clientDo (toastHttpRequest env.token body) w.net i).2 ≠ none) :
    ∃ e, (nthResult env.clientDo (toastHttpRequest env.token body) w.net 2).2 = some e ∧
      GetBotResponse env userLines botLines systemPrompt w =
        (.panic e, ⟨stateBefore env.clientDo (toastHttpRequest env.token body) 3 w.net,
          w.log ++ [Ev.call, Ev.sleep 1, Ev.call, Ev.sleep 2, Ev.call]⟩) ∧
      (GetBotResponse env userLines botLines systemPrompt w).1.returned = false := by
  obtain ⟨e, he, hm⟩ := makeCall_transport_failure env userLines botLines systemPrompt
    env.token w messages body hmsgs hmarshal hfail
  have hg : GetBotResponse env userLines botLines systemPrompt w =
      (.panic e, ⟨stateBefore env.clientDo (toastHttpRequest env.token body) 3 w.net,
        w.log ++ [Ev.call, Ev.sleep 1, Ev.call, Ev.sleep 2, Ev.call]⟩) := by
    simp only [GetBotResponse, hcred, hm]
  refine ⟨e, he, hg, ?_⟩
  rw [hg]
  rfl

/-- C6, witness: a credential that expires in the year 2033, and a network on which only
the requests to the ToastJam URL fail; the other requests would be answered. -/
theorem GetBotResponse_transport_failure_panics_witness :
    getRemainingTokenTime (toastOnlyDownEnv "h.eyJleHAiOjIwMDAwMDAwMDB9.s")
      "h.eyJleHAiOjIwMDAwMDAwMDB9.s" = .ret (300000000, none) ∧
    ((toastOnlyDownEnv "h.eyJleHAiOjIwMDAwMDAwMDB9.s").clientDo 0
      ⟨"GET", "https://example.org/", "", []⟩).1 = (some "pong", none) ∧
    GetBotResponse (toastOnlyDownEnv "h.eyJleHAiOjIwMDAwMDAwMDB9.s") ["Hi", "Are you there?"]
      [⟨"Hello!", ∅⟩] "You are a helpful assistant" ⟨0, []⟩ =
      (.panic "connection refused",
        ⟨3, [Ev.call, Ev.sleep 1, Ev.call, Ev.sleep 2, Ev.call]⟩) := by
  have hcred : getRemainingTokenTime (toastOnlyDownEnv "h.eyJleHAiOjIwMDAwMDAwMDB9.s")
      (toastOnlyDownEnv "h.eyJleHAiOjIwMDAwMDAwMDB9.s").token = .ret (300000000, none) := by
    rfl
  refine ⟨hcred, rfl, ?_⟩
  obtain ⟨e, he, h, _⟩ := GetBotResponse_transport_failure_panics
    (toastOnlyDownEnv "h.eyJleHAiOjIwMDAwMDAwMDB9.s") ["Hi", "Are you there?"] [⟨"Hello!", ∅⟩]
    "You are a helpful assistant" ⟨0, []⟩ 300000000 _ "body" hcred
    (ConstructMessages_zero _ _ _) rfl
    (fun i _ => by simp [nthResult, toastOnlyDownEnv, toastHttpRequest])
  have he2 : e = "connection refused" := by
    simpa [nthResult, toastOnlyDownEnv, toastHttpRequest] using he.symm
  have hs : stateBefore (toastOnlyDownEnv "h.eyJleHAiOjIwMDAwMDAwMDB9.s").clientDo
      (toastHttpRequest (toastOnlyDownEnv "h.eyJleHAiOjIwMDAwMDAwMDB9.s").token "body") 3 0 = 3 := by
    simp [stateBefore, toastOnlyDownEnv, toastHttpRequest]
  rw [h, he2, hs]
  rfl

/-- C6, counterexample: with a valid credential and a network that refuses every
connection, `GetBotResponse` does not return a `BotResponse` describing the error; it
panics with "connection refused" after three attempts. -/
theorem GetBotResponse_transport_failure_not_recovered :
    GetBotResponse (sampleEnv "h.eyJleHAiOjIwMDAwMDAwMDB9.s") ["Hi"] []
      "You are a helpful assistant" ⟨0, []⟩ =
      (.panic "connection refused",
        ⟨3, [Ev.call, Ev.sleep 1, Ev.call, Ev.sleep 2, Ev.call]⟩) ∧
    (GetBotResponse (sampleEnv "h.eyJleHAiOjIwMDAwMDAwMDB9.s") ["Hi"] []
      "You are a helpful assistant" ⟨0, []⟩).1.returned = false := by
  have hcred : getRemainingTokenTime (sampleEnv "h.eyJleHAiOjIwMDAwMDAwMDB9.s")
      (sampleEnv "h.eyJleHAiOjIwMDAwMDAwMDB9.s").token = .ret (300000000, none) := by
    rfl
  obtain ⟨e, he, h⟩ := makeCall_transport_failure
    (sampleEnv "h.eyJleHAiOjIwMDAwMDAwMDB9.s") ["Hi"] []
    "You are a helpful assistant" (sampleEnv "h.eyJleHAiOjIwMDAwMDAwMDB9.s").token ⟨0, []⟩
    _ "body" (ConstructMessages_zero _ _ _) rfl
    (fun i _ => by simp [nthResult, sampleEnv])
  have he2 : e = "connection refused" := by
    simpa [nthResult, sampleEnv] using he.symm
  have hs : stateBefore (sampleEnv "h.eyJleHAiOjIwMDAwMDAwMDB9.s").clientDo
      (toastHttpRequest (sampleEnv "h.eyJleHAiOjIwMDAwMDAwMDB9.s").token "body") 3 0 = 3 := by
    simp [stateBefore, sampleEnv]
  have hfull : GetBotResponse (sampleEnv "h.eyJleHAiOjIwMDAwMDAwMDB9.s") ["Hi"] []
      "You are a helpful assistant" ⟨0, []⟩ =
      (.panic "connection refused",
        ⟨3, [Ev.call, Ev.sleep 1, Ev.call, Ev.sleep 2, Ev.call]⟩) := by
    simp only [GetBotResponse, hcred, h, he2, hs, List.nil_append]
  rw [hfull]
  exact ⟨rfl, rfl⟩

/-- A second credential the source lets through: with `exp = -2^63` the difference
`exp - now` wraps in 64 bits to a positive number, so the long-expired credential
counts as valid. -/
theorem getRemainingTokenTime_exp_wraps {σ Resp : Type} (env : ToastEnv σ Resp)
    (toastToken raw : String) (info : GoMap JVal)
    (hne : toastToken ≠ "") (hparts : (stringsSplit toastToken '.').length = 3)
    (hb64 : env.b64Decode ((stringsSplit toastToken '.').getD 1 "") = some raw)
    (hjson : env.jsonUnmarshalMap raw = some info)
    (hexp : info.lookup "exp" = some (JVal.number (-9223372036854775808)))
    (hnow : env.now = 1700000000) :
    getRemainingTokenTime env toastToken = .ret (9223372035154775808, none) := by
  have hw : wrap64 (-9223372036854775808 - 1700000000) = 9223372035154775808 := by decide
  simp only [getRemainingTokenTime, hne, if_false, hparts, ne_eq, not_true_eq_false, hb64,
    hjson, hexp, hnow, hw]
  rfl

/-! ## C1, C2, C10: the turn controller -/

theorem updateWidgets_turns {W : Widgets} (m : ChatModel W) (msg : Msg) :
    (updateWidgets m msg).1.userLines = m.userLines ∧
    (updateWidgets m msg).1.botLines = m.botLines ∧
    (updateWidgets m msg).1.writingMessage = m.writingMessage ∧
    (updateWidgets m msg).1.currentMessage =
      (if m.writingMessage && isUserTurn m then (W.taUpdate m.currentMessage msg).1
       else m.currentMessage) := by
  unfold updateWidgets
  by_cases h : (m.writingMessage && isUserTurn m) = true
  · simp [h]
  · simp [h]

/-- The case "enter": in the user's turn with text in the box the text becomes a user
turn and the backend is dispatched; in every other case the turns are untouched and
the command is the metadata widget's. -/
theorem updateEnter_turns {W : Widgets} (m : ChatModel W) (cmd : Option W.WidgetCmd) :
    (updateEnter m cmd).1.botLines = m.botLines ∧
    ((isUserTurn m = true ∧ m.writingMessage = true ∧ W.taValue m.currentMessage ≠ "" ∧
        (updateEnter m cmd).1.userLines = m.userLines ++ [W.taValue m.currentMessage] ∧
        (updateEnter m cmd).2.isDoBotMessage = true) ∨
     (¬ (isUserTurn m = true ∧ m.writingMessage = true ∧ W.taValue m.currentMessage ≠ "") ∧
        (updateEnter m cmd).1.userLines = m.userLines ∧
        (updateEnter m cmd).2 = .widget cmd)) := by
  unfold updateEnter
  by_cases h1 : isUserTurn m = true
  · by_cases h2 : m.writingMessage = true
    · by_cases h3 : W.taValue m.currentMessage = ""
      · simp [h1, h2, h3]
      · simp [h1, h2, h3, Cmd.isDoBotMessage]
    · simp [h1, h2]
  · simp [h1]

/-- What one `Update` step does to the two turn lists. -/
theorem Update_turns {W : Widgets} (m m' : ChatModel W) (msg : Msg) (c : Cmd W)
    (h : Update m msg = .ret (m', c)) :
    (∀ r, msg = .botResponse r →
      m'.userLines = m.userLines ∧ m'.botLines = m.botLines ++ [r] ∧
        c.isDoBotMessage = false) ∧
    ((∀ r, msg ≠ .botResponse r) → m'.botLines = m.botLines ∧
      ((c.isDoBotMessage = false ∧ m'.userLines = m.userLines) ∨
       (c.isDoBotMessage = true ∧ m.userLines.length = m.botLines.length ∧
          m'.userLines.length = m.userLines.length + 1))) := by
  obtain ⟨hu, hb, hw, _⟩ := updateWidgets_turns m msg
  cases msg with
  | windowSize wd ht =>
    simp only [Update, Outcome.ret.injEq, Prod.mk.injEq] at h
    obtain ⟨h1, h2⟩ := h
    subst h1 h2
    exact ⟨fun r hr => (by cases hr), fun _ => ⟨hb, Or.inl ⟨rfl, hu⟩⟩⟩
  | key k =>
    refine ⟨fun r hr => (by cases hr), fun _ => ?_⟩
    simp only [Update] at h
    by_cases hq : k = "ctrl+c"
    · simp only [hq, if_true] at h
      split at h
      · cases h
      · simp only [Outcome.ret.injEq, Prod.mk.injEq] at h
        obtain ⟨h1, h2⟩ := h
        subst h1
        rename_i c2 hwr
        have hc : c2 = Cmd.quit := by
          unfold WriteChatToFile at hwr
          split at hwr
          · cases hwr
          · cases hwr
          · simpa using hwr.symm
        subst h2 hc
        rw [hq] at hu hb
        exact ⟨hb, Or.inl ⟨rfl, hu⟩⟩
    · simp only [hq, if_false] at h
      by_cases he : k = "enter"
      · simp only [he, if_true, Outcome.ret.injEq] at h
        rw [he] at hu hb hw
        obtain ⟨hb2, hcase⟩ := updateEnter_turns (updateWidgets m (Msg.key "enter")).1
          (updateWidgets m (Msg.key "enter")).2.2.2
        rw [h] at hb2 hcase
        simp only at hb2 hcase
        refine ⟨hb2.trans hb, ?_⟩
        rcases hcase with ⟨ht, _, _, hul, hd⟩ | ⟨_, hul, hd⟩
        · right
          refine ⟨hd, ?_, ?_⟩
          · simpa [isUserTurn, hu, hb] using ht
          · rw [hul, hu]; simp
        · left
          exact ⟨by rw [hd]; rfl, hul.trans hu⟩
      · simp only [he, if_false, Outcome.ret.injEq, Prod.mk.injEq] at h
        obtain ⟨h1, h2⟩ := h
        subst h1 h2
        exact ⟨hb, Or.inl ⟨rfl, hu⟩⟩
  | botResponse r =>
    simp only [Update, Outcome.ret.injEq, Prod.mk.injEq] at h
    obtain ⟨h1, h2⟩ := h
    subst h1 h2
    refine ⟨fun r2 hr => ?_, fun hne => absurd rfl (hne r)⟩
    cases hr
    exact ⟨hu, by simp only [hb], rfl⟩
  | other tag =>
    simp only [Update, Outcome.ret.injEq, Prod.mk.injEq] at h
    obtain ⟨h1, h2⟩ := h
    subst h1 h2
    exact ⟨fun r hr => (by cases hr), fun _ => ⟨hb, Or.inl ⟨rfl, hu⟩⟩⟩

theorem InitialModel_turns {W : Widgets} (systemPrompt modelName : String) (m : ChatModel W)
    (h : InitialModel W systemPrompt modelName = .ret m) :
    m.userLines = [] ∧ m.botLines = [] := by
  unfold InitialModel at h
  split at h
  · cases h
  · simp only [Outcome.ret.injEq] at h
    subst h
    exact ⟨rfl, rfl⟩

/-- In every reachable session the user turns are the bot turns plus the outstanding
backend calls, and at most one backend call is outstanding. -/
theorem Reachable_pending {W : Widgets} (s : Session W) (h : Reachable W s) :
    s.model.userLines.length = s.model.botLines.length + s.pending ∧ s.pending ≤ 1 := by
  induction h with
  | init systemPrompt modelName m h =>
    obtain ⟨hu, hb⟩ := InitialModel_turns systemPrompt modelName m h
    simp [hu, hb]
  | event s msg m c _ hmsg h ih =>
    obtain ⟨hb, hcase⟩ := (Update_turns s.model m msg c h).2 hmsg
    rcases hcase with ⟨hd, hu⟩ | ⟨hd, hturn, hu⟩
    · simp only [Cmd.dispatched, hd, hu, hb]
      simpa using ih
    · simp only [Cmd.dispatched, hd, hu, hb, if_true]
      omega
  | response s r m c _ hp h ih =>
    obtain ⟨hu, hb, hd⟩ := (Update_turns s.model m (.botResponse r) c h).1 r rfl
    simp only [Cmd.dispatched, hd, hu, hb, List.length_append, List.length_singleton]
    simp only [Bool.false_eq_true, if_false]
    omega

/-- C1: in every session reachable from `InitialModel` by `Update` steps (key presses,
window resizes, spinner ticks, and one `BotResponse` for each `DoBotMessage` command that
`Update` returned), `len(botLines) ≤ len(userLines) ≤ len(botLines) + 1`. -/
theorem turn_invariant {W : Widgets} (s : Session W) (h : Reachable W s) :
    s.model.botLines.length ≤ s.model.userLines.length ∧
    s.model.userLines.length ≤ s.model.botLines.length + 1 := by
  have := Reachable_pending s h
  omega

theorem Update_enter {W : Widgets} (m : ChatModel W) :
    Update m (.key "enter") =
      .ret (updateEnter (updateWidgets m (.key "enter")).1
        (updateWidgets m (.key "enter")).2.2.2) := by
  have h : ¬ ("enter" = "ctrl+c") := by decide
  simp only [Update, h, if_false, if_true]

/-- C2: for every model in which a bot response is outstanding
(`len(userLines) = len(botLines) + 1`), whatever the text in the input box, an "enter"
key leaves `userLines` and `botLines` unchanged and the command it returns is not
`DoBotMessage`. -/
theorem enter_while_bot_responding {W : Widgets} (m : ChatModel W)
    (hout : m.userLines.length = m.botLines.length + 1) :
    ∃ m' c, Update m (.key "enter") = .ret (m', c) ∧
      m'.userLines = m.userLines ∧ m'.botLines = m.botLines ∧
      c.isDoBotMessage = false := by
  obtain ⟨hu, hb, _, _⟩ := updateWidgets_turns m (.key "enter")
  obtain ⟨hb2, hcase⟩ := updateEnter_turns (updateWidgets m (.key "enter")).1
    (updateWidgets m (.key "enter")).2.2.2
  have hup := Update_enter m
  generalize updateEnter (updateWidgets m (.key "enter")).1
    (updateWidgets m (.key "enter")).2.2.2 = p at hb2 hcase hup
  obtain ⟨m', c⟩ := p
  simp only at hb2 hcase
  refine ⟨m', c, hup, ?_, hb2.trans hb, ?_⟩
  · rcases hcase with ⟨ht, _⟩ | ⟨_, hul, _⟩
    · simp [isUserTurn, hu, hb, hout] at ht
    · exact hul.trans hu
  · rcases hcase with ⟨ht, _⟩ | ⟨_, _, hd⟩
    · simp [isUserTurn, hu, hb, hout] at ht
    · rw [hd]; rfl

/-- C10: for every model in which it is the user's turn (`len(userLines) = len(botLines)`)
and the input text is empty, an "enter" key (which the text area, configured without
newline insertion, does not add to its text) leaves `userLines` and `botLines`
unchanged, it is still the user's turn afterwards, and the command it returns is not
`DoBotMessage`. -/
theorem empty_submission_noop {W : Widgets} (m : ChatModel W)
    (hturn : m.userLines.length = m.botLines.length)
    (hempty : W.taValue m.currentMessage = "")
    (hkey : W.taValue (W.taUpdate m.currentMessage (.key "enter")).1 =
      W.taValue m.currentMessage) :
    ∃ m' c, Update m (.key "enter") = .ret (m', c) ∧
      m'.userLines = m.userLines ∧ m'.botLines = m.botLines ∧
      isUserTurn m' = true ∧ c.isDoBotMessage = false := by
  obtain ⟨hu, hb, _, hcm⟩ := updateWidgets_turns m (.key "enter")
  obtain ⟨hb2, hcase⟩ := updateEnter_turns (updateWidgets m (.key "enter")).1
    (updateWidgets m (.key "enter")).2.2.2
  have hval : W.taValue (updateWidgets m (.key "enter")).1.currentMessage = "" := by
    rw [hcm]
    split
    · rw [hkey, hempty]
    · exact hempty
  have hup := Update_enter m
  generalize updateEnter (updateWidgets m (.key "enter")).1
    (updateWidgets m (.key "enter")).2.2.2 = p at hb2 hcase hup
  obtain ⟨m', c⟩ := p
  simp only at hb2 hcase
  have hul : m'.userLines = m.userLines ∧ c.isDoBotMessage = false := by
    rcases hcase with ⟨_, _, hne, _⟩ | ⟨_, hul, hd⟩
    · exact absurd hval hne
    · exact ⟨hul.trans hu, by rw [hd]; rfl⟩
  refine ⟨m', c, hup, hul.1, hb2.trans hb, ?_, hul.2⟩
  simp [isUserTurn, hul.1, hb2.trans hb, hturn]

/-- C2, witness: the user has sent "Hi", the reply is outstanding, and the user has
typed more text. -/
theorem enter_while_bot_responding_witness :
    ∃ m' c, Update (sampleModel "You are a helpful assistant" ["Hi"] [] "again" false)
        (.key "enter") = .ret (m', c) ∧
      m'.userLines = ["Hi"] ∧ m'.botLines = [] ∧ c.isDoBotMessage = false :=
  enter_while_bot_responding (sampleModel "You are a helpful assistant" ["Hi"] [] "again" false)
    (by decide)

/-- C10, witness: one finished exchange, an empty input box. -/
theorem empty_submission_noop_witness :
    ∃ m' c, Update (sampleModel "You are a helpful assistant" ["Hi"] [⟨"Hello!", ∅⟩] "" true)
        (.key "enter") = .ret (m', c) ∧
      m'.userLines = ["Hi"] ∧ m'.botLines = [⟨"Hello!", ∅⟩] ∧
      isUserTurn m' = true ∧ c.isDoBotMessage = false :=
  empty_submission_noop (sampleModel "You are a helpful assistant" ["Hi"] [⟨"Hello!", ∅⟩] "" true)
    (by decide) (by rfl) (by rfl)

/-- C1, witness: from the initial model the user types "H" and presses enter; the
session reached has one user turn and one outstanding backend call. -/
theorem turn_invariant_witness :
    ∃ s : Session sampleWidgets, Reachable sampleWidgets s ∧
      s.model.userLines = ["H"] ∧ s.model.botLines = [] ∧ s.pending = 1 ∧
      s.model.botLines.length ≤ s.model.userLines.length ∧
      s.model.userLines.length ≤ s.model.botLines.length + 1 := by
  have h0 : Reachable sampleWidgets
      ⟨sampleModel "You are a helpful assistant" [] [] "" true, 0⟩ :=
    Reachable.init "You are a helpful assistant" "toast" _ rfl
  have h1 := Reachable.event _ (.key "H") _ _ h0 (fun r hr => by cases hr) rfl
  have h2 := Reachable.event _ (.key "enter") _ _ h1 (fun r hr => by cases hr) rfl
  exact ⟨_, h2, rfl, rfl, rfl, turn_invariant _ h2⟩

/-! ## C8: the transcript layout -/

theorem foldl_append_init (l : List String) (acc : String) :
    l.foldl (fun r s => r ++ s) acc = acc ++ l.foldl (fun r s => r ++ s) "" := by
  induction l generalizing acc with
  | nil => simp
  | cons a l ih =>
    rw [List.foldl_cons, ih, List.foldl_cons, ih ("" ++ a)]
    simp [String.append_assoc]

theorem join_cons (a : String) (l : List String) :
    String.join (a :: l) = a ++ String.join l := by
  show (a :: l).foldl (fun r s => r ++ s) "" = a ++ l.foldl (fun r s => r ++ s) ""
  rw [List.foldl_cons, foldl_append_init]
  simp

theorem join_nil : String.join [] = "" := rfl

theorem foldl_write {α : Type} (l : List α) (f : α → String) (sb : String) :
    l.foldl (fun sb x => sb ++ f x) sb = sb ++ String.join (l.map f) := by
  induction l generalizing sb with
  | nil => simp [join_nil]
  | cons a l ih => rw [List.foldl_cons, ih, List.map_cons, join_cons, String.append_assoc]

theorem blocksLoop_eq (W : Widgets) (userLines : List String) (botLines : List BotResponse) :
    ∀ (n c : Nat) (sb : String), c + n = userLines.length →
      (List.range' c n).foldl
        (fun sb i =>
          let sb := sb ++ ("### Human \n " ++ W.humanPrompt ++ userLines.getD i "" ++ "\n\n")
          if i < botLines.length then
            sb ++ ("### Bot \n " ++ W.botPrompt ++ (botLines.getD i ⟨"", ∅⟩).Content ++ "\n\n")
          else sb)
        sb = sb ++ String.join (specBlocks W (userLines.drop c) (botLines.drop c)) := by
  intro n
  induction n with
  | zero =>
    intro c sb h
    have : userLines.drop c = [] := List.drop_eq_nil_of_le (by omega)
    simp [this, specBlocks, join_nil]
  | succ n ih =>
    intro c sb h
    have hc : c < userLines.length := by omega
    rw [List.range'_succ, List.foldl_cons, ih (c + 1) _ (by omega)]
    rw [List.drop_eq_getElem_cons hc, List.getD_eq_getElem _ _ hc]
    by_cases hb : c < botLines.length
    · rw [List.drop_eq_getElem_cons hb, List.getD_eq_getElem _ _ hb]
      simp only [hb, if_true, specBlocks, join_cons, humanBlock, botBlock, String.append_assoc]
    · have h1 : botLines.drop c = [] := List.drop_eq_nil_of_le (by omega)
      have h2 : botLines.drop (c + 1) = [] := List.drop_eq_nil_of_le (by omega)
      simp only [hb, if_false, h1, h2, specBlocks, join_cons, humanBlock, String.append_assoc]

theorem sortStrings_sorted (keys : List String) (h : keys.Nodup) :
    (sortStrings keys).Sorted (· < ·) ∧ ∀ k, k ∈ sortStrings keys ↔ k ∈ keys := by
  have hp : (sortStrings keys).Perm keys := List.perm_insertionSort _ keys
  have hs : (sortStrings keys).Sorted (· ≤ ·) := List.sorted_insertionSort _ keys
  exact ⟨hs.lt_of_le (hp.nodup_iff.mpr h), fun k => hp.mem_iff⟩

theorem formatChatForMarkdown_eq {W : Widgets} (m : ChatModel W) :
    formatChatForMarkdown m =
      "# System Prompt: " ++ m.systemPrompt ++ "\n" ++
        ("## " ++ W.timeFormat m.chatStartTime "2006-January-02 15:04:05" ++ "\n\n") ++
        (match m.botLines.getLast? with
          | none => ""
          | some last => metadataLineOf last.Metadata (sortStrings last.Metadata.keys)) ++
        String.join (specBlocks W m.userLines m.botLines) := by
  unfold formatChatForMarkdown
  have hloop := blocksLoop_eq W m.userLines m.botLines m.userLines.length 0
  simp only [List.drop_zero, zero_add] at hloop
  rw [List.range_eq_range']
  simp only []
  rw [hloop _ trivial]
  congr 1
  by_cases h : m.botLines.length > 0
  · have hne : m.botLines ≠ [] := by
      intro h0; rw [h0] at h; simp at h
    have hlast : m.botLines.getLast? =
        some (m.botLines.get ⟨m.botLines.length - 1, by omega⟩) := by
      rw [List.getLast?_eq_getLast _ hne, List.getLast_eq_getElem]
      rfl
    simp only [h, dite_true, hlast, foldl_write, metadataLineOf, String.append_assoc,
      String.empty_append]
  · have h0 : m.botLines = [] := List.eq_nil_of_length_eq_zero (by omega)
    simp [h0, String.append_assoc]

theorem sortStrings_exampleMetadata : sortStrings exampleMetadata.keys = ["a", "b"] := by
  have h : ¬ ("b" : String) ≤ "a" := by
    rw [String.le_iff_toList_le]
    decide
  have hk : exampleMetadata.keys = ["b", "a"] := by decide
  rw [hk]
  simp [sortStrings, List.insertionSort, List.orderedInsert, h]

/-- C8: for every conversation the document is, in order, the heading line
"# System Prompt: <systemPrompt>", the start-time heading, a metadata line that is present
exactly when `botLines` is non-empty and lists the last bot turn's metadata as
"key: value " pairs with the keys in strictly increasing order, and then for each user
turn in chronological order a Human block with the user text followed by a Bot block
with the bot content, the Bot block being left out when the bot turns are used up.
For the system prompt "You are a helpful assistant", the user turn "Hi" and the bot turn
"Hello!" with metadata a: 1, b: 2 the document is the system-prompt heading, the time
heading, the line "## Metadata - a: 1 b: 2 ", the block with "Hi", the block with
"Hello!". -/
theorem formatChatForMarkdown_layout {W : Widgets} (m : ChatModel W) :
    (∃ metadataLine : String,
      formatChatForMarkdown m =
        "# System Prompt: " ++ m.systemPrompt ++ "\n" ++
          ("## " ++ W.timeFormat m.chatStartTime "2006-January-02 15:04:05" ++ "\n\n") ++
          metadataLine ++
          String.join (specBlocks W m.userLines m.botLines) ∧
      (m.botLines = [] → metadataLine = "") ∧
      (∀ last, m.botLines.getLast? = some last →
        ∃ ks : List String, ks.Sorted (· < ·) ∧ (∀ k, k ∈ ks ↔ k ∈ last.Metadata.keys) ∧
          metadataLine = metadataLineOf last.Metadata ks)) ∧
    (m.systemPrompt = "You are a helpful assistant" → m.userLines = ["Hi"] →
      m.botLines = [⟨"Hello!", exampleMetadata⟩] →
      formatChatForMarkdown m =
        "# System Prompt: You are a helpful assistant\n" ++
          ("## " ++ W.timeFormat m.chatStartTime "2006-January-02 15:04:05" ++ "\n\n") ++
          "## Metadata - a: 1 b: 2 \n\n" ++
          ("### Human \n " ++ W.humanPrompt ++ "Hi\n\n") ++
          ("### Bot \n " ++ W.botPrompt ++ "Hello!\n\n")) := by
  refine ⟨⟨_, formatChatForMarkdown_eq m, ?_, ?_⟩, ?_⟩
  · intro h
    simp [h]
  · intro last hlast
    obtain ⟨hs, hm⟩ := sortStrings_sorted last.Metadata.keys last.Metadata.keys_nodup
    exact ⟨sortStrings last.Metadata.keys, hs, hm, by simp only [hlast]⟩
  · intro hsp hu hb
    rw [formatChatForMarkdown_eq, hsp, hu, hb]
    have hl : [(⟨"Hello!", exampleMetadata⟩ : BotResponse)].getLast? =
        some ⟨"Hello!", exampleMetadata⟩ := rfl
    have hmd : metadataLineOf exampleMetadata ["a", "b"] = "## Metadata - a: 1 b: 2 \n\n" := by
      decide
    simp only [hl, sortStrings_exampleMetadata, hmd, specBlocks, join_cons, join_nil,
      humanBlock, botBlock, String.append_assoc]
    rfl

/-- C8, witness: the example conversation over the sample widgets. -/
theorem formatChatForMarkdown_layout_witness :
    formatChatForMarkdown
        (sampleModel "You are a helpful assistant" ["Hi"] [⟨"Hello!", exampleMetadata⟩] "" true) =
      "# System Prompt: You are a helpful assistant\n## 2023-November-14 22:13:20\n\n## Metadata - a: 1 b: 2 \n\n### Human \n You: Hi\n\n### Bot \n Bot: Hello!\n\n" :=
  ((formatChatForMarkdown_layout
    (sampleModel "You are a helpful assistant" ["Hi"] [⟨"Hello!", exampleMetadata⟩] "" true)).2
    rfl rfl rfl).trans (by decide)

/-! ## C9: the filename fragment -/

theorem ascii_fin : ∀ n : Fin 128,
    String.utf8EncodeChar (if Char.ofNat n.val = ' ' then '_' else Char.ofNat n.val) =
      (String.utf8EncodeChar (Char.ofNat n.val)).map (fun b => if b = 32 then 95 else b) ∧
    (String.utf8EncodeChar (Char.ofNat n.val)).length = 1 := by
  decide

theorem ascii_char (c : Char) (h : c.val ≤ 127) :
    String.utf8EncodeChar (if c = ' ' then '_' else c) =
      (String.utf8EncodeChar c).map (fun b => if b = 32 then 95 else b) ∧
    (String.utf8EncodeChar c).length = 1 := by
  have hn : c.toNat < 128 := by
    have : c.val.toNat ≤ 127 := h
    simp only [Char.toNat]
    omega
  have := ascii_fin ⟨c.toNat, hn⟩
  simpa [Char.ofNat_toNat] using this

theorem take_flatMap_ascii : ∀ (l : List Char) (n : Nat), (∀ c ∈ l, c.val ≤ 127) →
    (l.take n).flatMap String.utf8EncodeChar = (l.flatMap String.utf8EncodeChar).take n
  | [], n, _ => by simp
  | c :: cs, 0, _ => by simp
  | c :: cs, n + 1, h => by
    have hc := (ascii_char c (h c (List.mem_cons_self c cs))).2
    obtain ⟨b, hb⟩ := List.length_eq_one.mp hc
    have ih := take_flatMap_ascii cs n (fun x hx => h x (List.mem_cons_of_mem c hx))
    simp [List.flatMap_cons, hb, ih]

theorem map_flatMap_ascii : ∀ (l : List Char), (∀ c ∈ l, c.val ≤ 127) →
    (l.map (fun c => if c = ' ' then '_' else c)).flatMap String.utf8EncodeChar =
      replaceSpaces (l.flatMap String.utf8EncodeChar)
  | [], _ => by simp [replaceSpaces]
  | c :: cs, h => by
    have hc := (ascii_char c (h c (List.mem_cons_self c cs))).1
    have ih := map_flatMap_ascii cs (fun x hx => h x (List.mem_cons_of_mem c hx))
    simp only [replaceSpaces] at ih ⊢
    simp only [List.map_cons, List.flatMap_cons, List.map_append, hc, ih]

theorem getFilename_eq {W : Widgets} (m : ChatModel W) :
    getFilename m = replaceSpaces ((goBytes (firstLine m)).take 30) := by
  unfold getFilename firstLine
  cases m.userLines with
  | nil =>
    simp only []
    split
    · rfl
    · rw [List.take_of_length_le (by omega)]
  | cons first rest =>
    simp only []
    split
    · rfl
    · rw [List.take_of_length_le (by omega)]

/-- C9 (as amended): for every model the filename fragment is the first 30 bytes of the
UTF-8 form of the first user message (of the system prompt when there is no user
message), the whole text when it has at most 30 bytes, with every space replaced by an
underscore. For text of one-byte (ASCII) characters this is the first 30 characters.
For the first user message "Please summarize this long paragraph about..." the
fragment is "Please_summarize_this_long_par". -/
theorem getFilename_first_30_bytes {W : Widgets} (m : ChatModel W) :
    getFilename m = replaceSpaces ((goBytes (firstLine m)).take 30) ∧
    ((∀ c ∈ (firstLine m).data, c.val ≤ 127) →
      getFilename m = goBytes (specFilename (firstLine m))) ∧
    (firstLine m = "Please summarize this long paragraph about..." →
      getFilename m = goBytes "Please_summarize_this_long_par") := by
  refine ⟨getFilename_eq m, ?_, ?_⟩
  · intro h
    rw [getFilename_eq]
    unfold goBytes specFilename
    simp only []
    rw [map_flatMap_ascii _ (fun c hc => h c (List.mem_of_mem_take hc)),
      take_flatMap_ascii _ _ h]
  · intro h
    rw [getFilename_eq, h]
    decide

/-- C9, witness: the long first user message of the spec. -/
theorem getFilename_first_30_bytes_witness :
    getFilename (sampleModel "You are a helpful assistant"
      ["Please summarize this long paragraph about..."] [] "" true) =
      goBytes "Please_summarize_this_long_par" :=
  (getFilename_first_30_bytes (sampleModel "You are a helpful assistant"
    ["Please summarize this long paragraph about..."] [] "" true)).2.2 rfl

/-- C9, counterexample: the first user message is sixteen times the two-byte character
"é". It has 16 characters, so its first 30 characters are the whole message (32 bytes);
the fragment the code gives has 30 bytes, the first fifteen characters. -/
theorem getFilename_not_first_30_characters :
    specFilename "éééééééééééééééé" = "éééééééééééééééé" ∧
    getFilename (sampleModel "You are a helpful assistant" ["éééééééééééééééé"] [] "" true) ≠
      goBytes (specFilename "éééééééééééééééé") ∧
    getFilename (sampleModel "You are a helpful assistant" ["éééééééééééééééé"] [] "" true) =
      goBytes "ééééééééééééééé" := by
  decide

end ChatbotCli
